import Mathlib

/-!
Verification of the Auto_All_System repository's core data layer and
page-state detectors, as a shallow embedding in Lean.

The embedded code comes from:
* `src/core/database.py` — account/proxy/card CRUD over SQLite, bespoke
  line-format importers and exporters, and a module level lock;
* `src/core/backend_config.py` — browser backend selection;
* `src/google/backend/google_one_detector.py` — Google One page-state
  detection and SheerID verification-id extraction.

Python strings are modelled as `List Char` (one entry per code point,
matching Python's character-indexed semantics); `None`-able values as
`Option`; SQLite tables as Lean lists of typed rows.  Regular expressions
that appear in the source are specialised to the concrete patterns used
there (`https?://[^\s]+`, `^\d{4}-\d{4}$`, `verificationId=([a-zA-Z0-9]+)`,
`verify/([a-zA-Z0-9]+)`, `^[a-zA-Z0-9]+$`) and are implemented character by
character, keeping Python's leftmost-match and greedy semantics; `\d` and
whitespace classes are modelled by their ASCII meaning.
-/

/-! ## Basic character and list utilities (Python string semantics) -/

/-- Python `str.strip` whitespace class: `' '`, `\t`, `\n`, `\r`, `\x0b`, `\x0c`.
This is also the model of the regex class `\s` used in `https?://[^\s]+`. -/
def pyWS (c : Char) : Bool :=
  c == ' ' || c == '\t' || c == '\n' || c == '\r' || c == '\x0b' || c == '\x0c'

/-- Python `str.strip()` on a list of characters. -/
def pyStrip (l : List Char) : List Char :=
  ((l.dropWhile pyWS).reverse.dropWhile pyWS).reverse

/-- Does `l` contain `pat` as a contiguous substring?  (Python `pat in l`.) -/
def hasSub (pat : List Char) : List Char → Bool
  | [] => pat.isEmpty
  | c :: rest => pat.isPrefixOf (c :: rest) || hasSub pat rest

/-- One step of Python `str.split(sep)` with explicit fuel (the fuel is
always instantiated with the length of the list, which bounds the number of
recursive steps).  Scans left to right; each non-overlapping occurrence of
`sep` ends the current field. -/
def splitFuel (sep : List Char) : Nat → List Char → List (List Char)
  | 0, l => [l]
  | fuel + 1, l =>
    if sep.isPrefixOf l && !sep.isEmpty then
      [] :: splitFuel sep fuel (l.drop sep.length)
    else
      match l with
      | [] => [[]]
      | c :: rest => (splitFuel sep fuel rest).modifyHead (c :: ·)

/-- Python `str.split(sep)` for a non-empty separator. -/
def pySplit (sep l : List Char) : List (List Char) :=
  splitFuel sep l.length l

/-- Python `str.replace(pat, '')` with explicit fuel: removes every
non-overlapping occurrence of `pat`, scanning left to right. -/
def removeFuel (pat : List Char) : Nat → List Char → List Char
  | 0, l => l
  | fuel + 1, l =>
    if pat.isPrefixOf l && !pat.isEmpty then
      removeFuel pat fuel (l.drop pat.length)
    else
      match l with
      | [] => []
      | c :: rest => c :: removeFuel pat fuel rest

/-- Python `str.replace(pat, '')`. -/
def pyRemoveAll (pat l : List Char) : List Char :=
  removeFuel pat l.length l

/-- ASCII `[a-zA-Z0-9]`, exactly the class in the detector's regexes. -/
def isAlnumAscii (c : Char) : Bool :=
  (('a' ≤ c && c ≤ 'z') || ('A' ≤ c && c ≤ 'Z') || ('0' ≤ c && c ≤ '9'))

/-! ## `database.py`: `DBManager._parse_account_line` and
`parse_account_string` -/

/-- The dict returned by `_parse_account_line`: keys `email`, `password`,
`recovery_email`, `secret_key`, `verification_link`.  On a successful parse
`email` and `password` are always strings; the other three may be `None`. -/
structure Account where
  email : List Char
  password : List Char
  recovery_email : Option (List Char)
  secret_key : Option (List Char)
  verification_link : Option (List Char)
deriving DecidableEq, Repr

/-- The date-range filter `re.match(r'^\d{4}-\d{4}$', s)` of
`_parse_account_line` (e.g. `2020-2024`). -/
def isDateRange (s : List Char) : Bool :=
  match s with
  | [a, b, c, d, e, f, g, h, i] =>
    a.isDigit && b.isDigit && c.isDigit && d.isDigit && e == '-' &&
      f.isDigit && g.isDigit && h.isDigit && i.isDigit
  | _ => false

/-- `[^\s]+` can start matching here: the list begins with a
non-whitespace character. -/
def headNonWS : List Char → Bool
  | [] => false
  | d :: _ => !pyWS d

/-- `re.search(r'https?://[^\s]+', line)`: scanning positions left to
right, a position matches when `https://` or `http://` is a prefix there
*and* at least one non-whitespace character follows the scheme (`[^\s]+`
requires one; with none, the whole alternative fails at this position —
`s?` backtracking cannot rescue it since `://` then fails — and the search
moves on).  On a match, `[^\s]+` extends greedily, so the matched text is
the maximal non-whitespace run from the position. -/
def findHttpLink : List Char → Option (List Char)
  | [] => none
  | c :: rest =>
    if ("https://".data.isPrefixOf (c :: rest) && headNonWS ((c :: rest).drop 8)
        || "http://".data.isPrefixOf (c :: rest) && headNonWS ((c :: rest).drop 7)) then
      some ((c :: rest).takeWhile (fun ch => !pyWS ch))
    else
      findHttpLink rest

/-- The first two statements of `_parse_account_line`'s preprocessing:
`line = line.strip()`, then `if '#' in line: line = line.split('#')[0].strip()`. -/
def accountCommentStrip (line : List Char) : List Char :=
  let l1 := pyStrip line
  if l1.contains '#' then pyStrip (l1.takeWhile (fun c => c != '#')) else l1

/-- The comment / link / separator preprocessing of `_parse_account_line`,
up to and including the extraction of the `verification_link`: returns the
extracted link (if any) and the line after link removal.  Mirrors the
source statement by statement. -/
def accountLinkSplit (line sep : List Char) : Option (List Char) × List Char :=
  let l2 := accountCommentStrip line
  match findHttpLink l2 with
  | none => (none, l2)
  | some lk =>
    let r := pyStrip (pyRemoveAll lk l2)
    let r := if !sep.isEmpty && sep.isPrefixOf r then pyStrip (r.drop sep.length) else r
    (some lk, r)

/-- The field list of `_parse_account_line`: split on the separator
(defaulted to `----` when empty), strip each piece, drop empty pieces, and
drop date-range pieces. -/
def accountParts (line sep : List Char) : List (List Char) :=
  let (_, l3) := accountLinkSplit line sep
  let sep' := if sep.isEmpty then "----".data else sep
  (((pySplit sep' l3).map pyStrip).filter (fun p => !p.isEmpty)).filter
    (fun p => !isDateRange p)

/-- The field-assignment logic of `_parse_account_line` from the computed
parts: first field must look like an email (`'@' in parts[0] and '.' in
parts[0]`), second is the password, the third goes to `recovery_email`
when it contains `'@'` and `'.'` and to `secret_key` otherwise, and the
fourth fills `secret_key` when the third was a recovery email, else fills
`recovery_email` only when it contains `'@'` and `'.'`. -/
def assignAccountFields (link : Option (List Char)) :
    List (List Char) → Option Account
  | p0 :: p1 :: rest =>
    if p0.contains '@' && p0.contains '.' then
      let rs : Option (List Char) × Option (List Char) :=
        match rest with
        | [] => (none, none)
        | p2 :: rest2 =>
          let r3 : Option (List Char) × Option (List Char) :=
            if p2.contains '@' && p2.contains '.' then (some p2, none)
            else (none, some p2)
          match rest2 with
          | [] => r3
          | p3 :: _ =>
            match r3.1 with
            | none =>
              (if p3.contains '@' && p3.contains '.' then some p3 else none, r3.2)
            | some r => (some r, some p3)
      some ⟨p0, p1, rs.1, rs.2, link⟩
    else none
  | _ => none

/-- `DBManager._parse_account_line(line, separator)`, transcribed with its
early returns (`if not line or not line.strip(): return None`, and
`if not line: return None` after comment removal); after the early returns
the body is exactly the pipeline `accountLinkSplit` / `accountParts`
followed by the field assignment. -/
def parseAccountLine (line sep : List Char) : Option Account :=
  if pyStrip line = [] then none
  else if accountCommentStrip line = [] then none
  else assignAccountFields (accountLinkSplit line sep).1 (accountParts line sep)

/-- `parse_account_string(line, separator)`: the public wrapper; it calls
`_parse_account_line` inside `try/except` and returns `None` on any
exception, hence as a Lean function it is exactly the (total)
`parseAccountLine`. -/
def parse_account_string (line sep : String) : Option Account :=
  parseAccountLine line.data sep.data

/-! ### The C1 claim, as a function of the input

Claim C1 describes `parse_account_string` as: after stripping an inline
`#` comment, an embedded http(s) link, and any date-range field, return
`None` when fewer than two non-empty fields remain or the first field does
not contain both `'@'` and `'.'`; otherwise `email` is the first field,
`password` the second, the third field goes to `recovery_email` exactly
when it contains both `'@'` and `'.'` and to `secret_key` otherwise, and a
fourth field fills *whichever of the two is still unset*.  The function
below follows those words. -/
def claimParseStated (line sep : String) : Option Account :=
  let link := (accountLinkSplit line.data sep.data).1
  match accountParts line.data sep.data with
  | p0 :: p1 :: rest =>
    if p0.contains '@' && p0.contains '.' then
      let rs : Option (List Char) × Option (List Char) :=
        match rest with
        | [] => (none, none)
        | p2 :: rest2 =>
          let r3 : Option (List Char) × Option (List Char) :=
            if p2.contains '@' && p2.contains '.' then (some p2, none)
            else (none, some p2)
          match rest2 with
          | [] => r3
          | p3 :: _ =>
            match r3 with
            | (none, s) => (some p3, s)
            | (some r, _) => (some r, some p3)
      some ⟨p0, p1, rs.1, rs.2, link⟩
    else none
  | _ => none

/-- Claim C1 amended at the fourth field: the fourth field fills
`secret_key` when the third field was assigned to `recovery_email`, and
otherwise fills `recovery_email` only when it itself contains both `'@'`
and `'.'` (it is dropped otherwise).  All other words of C1 unchanged. -/
def claimParseAmended (line sep : String) : Option Account :=
  let link := (accountLinkSplit line.data sep.data).1
  match accountParts line.data sep.data with
  | p0 :: p1 :: rest =>
    if p0.contains '@' && p0.contains '.' then
      let rs : Option (List Char) × Option (List Char) :=
        match rest with
        | [] => (none, none)
        | p2 :: rest2 =>
          let r3 : Option (List Char) × Option (List Char) :=
            if p2.contains '@' && p2.contains '.' then (some p2, none)
            else (none, some p2)
          match rest2 with
          | [] => r3
          | p3 :: _ =>
            match r3 with
            | (none, s) =>
              (if p3.contains '@' && p3.contains '.' then some p3 else none, s)
            | (some r, _) => (some r, some p3)
      some ⟨p0, p1, rs.1, rs.2, link⟩
    else none
  | _ => none

/-! ## `google_one_detector.py`: `extract_verification_id` -/

/-- `re.search(lit ++ r'([a-zA-Z0-9]+)', s)` for a literal `lit`: the
leftmost position where the literal occurs immediately followed by at
least one ASCII alphanumeric character; the captured group is the maximal
alphanumeric run after the literal. -/
def searchLitAlnum (lit : List Char) : List Char → Option (List Char)
  | [] => none
  | c :: rest =>
    if lit.isPrefixOf (c :: rest) then
      let tok := ((c :: rest).drop lit.length).takeWhile isAlnumAscii
      if !tok.isEmpty then some tok else searchLitAlnum lit rest
    else searchLitAlnum lit rest

/-- `re.match(r'^[a-zA-Z0-9]+$', s)` in Python semantics: `$` matches at
the end of the string *or just before a trailing newline*, so the pattern
accepts a non-empty alphanumeric string optionally followed by one final
`'\n'`. -/
def fullAlnumDollar (l : List Char) : Bool :=
  (!l.isEmpty && l.all isAlnumAscii) ||
  (match l.reverse with
   | c :: rt => c == '\n' && !rt.isEmpty && rt.all isAlnumAscii
   | [] => false)

/-- `extract_verification_id(link_or_id)`: `None` or empty input gives
`None` (`if not link_or_id`); then the `verificationId=` query parameter,
then the token after `verify/`, then the whole input when
`re.match(r'^[a-zA-Z0-9]+$', link_or_id)` is truthy, else `None`. -/
def extract_verification_id (link_or_id : Option String) : Option String :=
  match link_or_id with
  | none => none
  | some s =>
    if s.data.isEmpty then none
    else
      match searchLitAlnum "verificationId=".data s.data with
      | some tok => some (String.mk tok)
      | none =>
        match searchLitAlnum "verify/".data s.data with
        | some tok => some (String.mk tok)
        | none => if fullAlnumDollar s.data then some s else none

/-- Claim C9 as stated: same search order, but the final fallback returns
the whole input exactly when the input is non-empty and *entirely*
alphanumeric. -/
def claimExtractStated (link_or_id : Option String) : Option String :=
  match link_or_id with
  | none => none
  | some s =>
    if s.data.isEmpty then none
    else
      match searchLitAlnum "verificationId=".data s.data with
      | some tok => some (String.mk tok)
      | none =>
        match searchLitAlnum "verify/".data s.data with
        | some tok => some (String.mk tok)
        | none =>
          if !s.data.isEmpty && s.data.all isAlnumAscii then some s else none

/-- Claim C9 amended at the final fallback: the whole input is returned
when it is non-empty and entirely alphanumeric *apart from at most one
trailing newline* (Python's `$` also matches just before a final newline);
otherwise `None`. -/
def claimExtractAmended (link_or_id : Option String) : Option String :=
  match link_or_id with
  | none => none
  | some s =>
    if s.data.isEmpty then none
    else
      match searchLitAlnum "verificationId=".data s.data with
      | some tok => some (String.mk tok)
      | none =>
        match searchLitAlnum "verify/".data s.data with
        | some tok => some (String.mk tok)
        | none =>
          if (!s.data.isEmpty && s.data.all isAlnumAscii) ||
              (s.data.getLast? == some '\n' && !s.data.dropLast.isEmpty &&
                s.data.dropLast.all isAlnumAscii) then
            some s
          else none

/-! ## `backend_config.py`: backend selection -/

/-- The module-level `_ALIASES` table of `backend_config.py`. -/
def backendAliases : List (String × String) :=
  [("bit", "bitbrowser"), ("bitbrowser", "bitbrowser"),
   ("bit_browser", "bitbrowser"), ("geek", "geekez"), ("geekez", "geekez"),
   ("geekezbrowser", "geekez"), ("geekez_browser", "geekez")]

/-- `_normalize_backend(value)`: strip and lowercase the input (`Char.toLower`
models Python `str.lower` on the ASCII values relevant here), resolve it
through `_ALIASES` (`_ALIASES.get(v, v)`), and accept only the two
canonical names. -/
def normalize_backend (value : String) : Option String :=
  let v : String := String.mk ((pyStrip value.data).map Char.toLower)
  if v.data.isEmpty then none
  else
    let v := match List.lookup v backendAliases with
             | some x => x
             | none => v
    if v == "bitbrowser" || v == "geekez" then some v else none

/-- `get_backend()`: prefer a recognized `BROWSER_BACKEND` environment
value, then a recognized `backend` entry of the settings file, else the
default `bitbrowser`.  The environment variable is the `env` argument
(`os.getenv` returns `""` by default in the source); `fileBackend` is
`str(data.get("backend", ""))` when the settings file exists and loads,
and `none` when the file is missing or reading raises (the `except` path). -/
def get_backend (env : String) (fileBackend : Option String) : String :=
  match normalize_backend env with
  | some b => b
  | none =>
    match fileBackend with
    | some raw =>
      match normalize_backend raw with
      | some v => v
      | none => "bitbrowser"
    | none => "bitbrowser"

/-! ## `google_one_detector.py`: `detect_google_one_status_dom`

The live Playwright page is abstracted into one observation per polling
round (the loop body runs once per second until `timeout_seconds`
elapses); real time is abstracted into the list of rounds the loop gets
to execute.  Each boolean summarises the visibility checks of one phrase
list; a locator/translation exception makes the corresponding observation
`false`/`none`, exactly as the source's `except: continue`/`pass` arms do. -/

/-- One polling round of `detect_google_one_status_dom`. -/
structure G1Round where
  /-- Some phrase of `SUBSCRIBED_PHRASES` has a visible match. -/
  subscribed : Bool
  /-- Some phrase of `VERIFIED_UNBOUND_PHRASES` has a visible match. -/
  verified : Bool
  /-- Some phrase of `NOT_AVAILABLE_PHRASES` has a visible match. -/
  ineligible : Bool
  /-- The fallback regex `not\s+eligible|isn.?t\s+eligible` has a visible match. -/
  ineligibleFallback : Bool
  /-- A `a[href*="sheerid.com"]` element exists; its `href` attribute may
  itself be null. -/
  linkHref : Option (Option String)
  /-- The translated link text contains `student offer` / `get offer`
  (the `deep_translator` branch; `false` also covers its `except` arms). -/
  translatedStudentOffer : Bool
deriving DecidableEq, Repr

/-- The body of the polling loop: the checks in source order —
subscribed phrases, verified phrases, not-available phrases, the
eligibility-regex fallback, then the SheerID link. -/
def detectRound (r : G1Round) : Option (String × Option String) :=
  if r.subscribed then some ("subscribed", none)
  else if r.verified then some ("verified", none)
  else if r.ineligible then some ("ineligible", none)
  else if r.ineligibleFallback then some ("ineligible", none)
  else
    match r.linkHref with
    | some href =>
      if r.translatedStudentOffer then some ("verified", none)
      else some ("link_ready", href)
    | none => none

/-- `detect_google_one_status_dom`, over the rounds the timeout allows:
return the first round's result, or `('timeout', None)` once the rounds
are exhausted. -/
def detect_google_one_status_dom : List G1Round → String × Option String
  | [] => ("timeout", none)
  | r :: rest =>
    match detectRound r with
    | some res => res
    | none => detect_google_one_status_dom rest

/-! ## `database.py`: typed state of the SQLite store

One Lean structure per table, with the columns of `init_db`'s `CREATE
TABLE` statements; `None`-able columns are `Option`.  Timestamps are the
strings SQLite/`get_local_timestamp()` produce; the current time enters
each operation as an explicit `now` argument. -/

/-- A row of the `accounts` table. -/
structure AccountRow where
  email : String
  password : Option String
  recovery_email : Option String
  secret_key : Option String
  verification_link : Option String
  browser_id : Option String
  status : String
  message : Option String
  created_at : String
  updated_at : String
deriving DecidableEq, Repr

/-- A row of the `proxies` table. -/
structure ProxyRow where
  id : Nat
  proxy_type : String
  host : String
  port : String
  username : Option String
  password : Option String
  remark : Option String
  is_used : Nat
  used_by : Option String
  created_at : String
  updated_at : String
deriving DecidableEq, Repr

/-- A row of the `cards` table. -/
structure CardRow where
  id : Nat
  card_number : String
  exp_month : String
  exp_year : String
  cvv : String
  holder_name : Option String
  zip_code : Option String
  country : Option String
  state : Option String
  city : Option String
  address : Option String
  billing_address : Option String
  remark : Option String
  usage_count : Nat
  max_usage : Nat
  is_active : Nat
  created_at : String
  updated_at : String
deriving DecidableEq, Repr

/-- A row of the `settings` table. -/
structure SettingRow where
  key : String
  value : Option String
  description : Option String
  updated_at : String
deriving DecidableEq, Repr

/-- A row of the `operation_logs` table. -/
structure LogRow where
  id : Nat
  operation_type : String
  target_email : Option String
  details : Option String
  status : Option String
  created_at : String
deriving DecidableEq, Repr

/-- The whole SQLite store. -/
structure DBState where
  accounts : List AccountRow
  proxies : List ProxyRow
  cards : List CardRow
  settings : List SettingRow
  logs : List LogRow
deriving DecidableEq, Repr

/-! ## `DBManager.upsert_account` and its delegates -/

/-- `DBManager.upsert_account`.  `sqlFail` injects an arbitrary failure of
the SQLite layer inside the `try` block (`some err` = some statement
raised `err`); the source catches every exception, prints `[DB ERROR]`,
and falls through, and an uncommitted transaction is rolled back when the
connection closes, so the state is unchanged on failure.  The second
component of the result is the exception propagated to the caller —
always `none`, because of the catch-all `except`.  When `email` is falsy
the function returns before opening a connection. -/
def upsert_account (now : String) (sqlFail : Option String) (db : DBState)
    (email : String)
    (password recovery_email secret_key link browser_id status message :
      Option String) : DBState × Option String :=
  if email = "" then (db, none)
  else
    match sqlFail with
    | some _ => (db, none)
    | none =>
      if db.accounts.any (fun r => r.email = email) then
        if password.isSome || recovery_email.isSome || secret_key.isSome ||
            link.isSome || browser_id.isSome || status.isSome ||
            message.isSome then
          ({ db with accounts := db.accounts.map (fun r =>
              if r.email = email then
                { r with
                  password := match password with
                              | some p => some p
                              | none => r.password,
                  recovery_email := match recovery_email with
                                    | some p => some p
                                    | none => r.recovery_email,
                  secret_key := match secret_key with
                                | some p => some p
                                | none => r.secret_key,
                  verification_link := match link with
                                       | some p => some p
                                       | none => r.verification_link,
                  browser_id := match browser_id with
                                | some p => some p
                                | none => r.browser_id,
                  status := match status with
                            | some p => p
                            | none => r.status,
                  message := match message with
                             | some p => some p
                             | none => r.message,
                  updated_at := now }
              else r) }, none)
        else (db, none)
      else
        ({ db with accounts := db.accounts ++
            [{ email := email, password := password,
               recovery_email := recovery_email, secret_key := secret_key,
               verification_link := link, browser_id := browser_id,
               status := match status with
                         | some s => if s = "" then "pending_check" else s
                         | none => "pending_check",
               message := message, created_at := now,
               updated_at := now }] }, none)

/-- `DBManager.update_status(email, status, message=None)`: delegates to
`upsert_account(email, status=status, message=message)`. -/
def update_status (now : String) (sqlFail : Option String) (db : DBState)
    (email status : String) (message : Option String) : DBState × Option String :=
  upsert_account now sqlFail db email none none none none none (some status) message

/-- `DBManager.update_account_status(email, status, message=None)`: same
delegation as `update_status`. -/
def update_account_status (now : String) (sqlFail : Option String)
    (db : DBState) (email status : String) (message : Option String) :
    DBState × Option String :=
  upsert_account now sqlFail db email none none none none none (some status) message

/-! ## `DBManager.increment_card_usage` -/

/-- `DBManager.increment_card_usage(card_id)`: `UPDATE cards SET
usage_count = usage_count + 1, updated_at = CURRENT_TIMESTAMP WHERE id = ?`. -/
def increment_card_usage (now : String) (db : DBState) (card_id : Nat) :
    DBState :=
  { db with cards := db.cards.map (fun c =>
      if c.id = card_id then
        { c with usage_count := c.usage_count + 1, updated_at := now }
      else c) }

/-! ## `DBManager.import_accounts_from_text`

The preprocessing of the text (splitting on newlines and on whitespace
followed by an email-shaped token) yields the list `lines`; the loop below
is `for line_num, line in enumerate(lines, 1)` over those post-split
lines.  `oracle n` injects a SQLite failure into the upsert of line `n`
(the source's `except Exception as e` arm around the upsert call). -/

/-- The skip condition of the import loop: after stripping, the line is
empty or starts with `#` or with `分隔符=`. -/
def importSkip (l : String) : Bool :=
  let line := pyStrip l.data
  line.isEmpty || "#".data.isPrefixOf line || "分隔符=".data.isPrefixOf line

/-- Does the line parse to an account with a truthy email
(`if account and account.get('email')`)? -/
def importParseOk (sep : String) (l : String) : Bool :=
  match parseAccountLine (pyStrip l.data) sep.data with
  | some acc => !acc.email.isEmpty
  | none => false

/-- The `无法解析` (cannot parse) error entry for line `n`. -/
def importErrMsg (n : Nat) (l : String) : String :=
  "Line " ++ toString n ++ ": 无法解析 - " ++ String.mk ((pyStrip l.data).take 50)

/-- The loop body of `import_accounts_from_text`, from line number `n`:
returns the final state, `success_count`, `error_count`, and `errors`. -/
def import_accounts_loop (now : String) (oracle : Nat → Option String)
    (sep default_status : String) :
    Nat → DBState → List String → DBState × Nat × Nat × List String
  | _, db, [] => (db, 0, 0, [])
  | n, db, l :: rest =>
    let line := pyStrip l.data
    if importSkip l then
      import_accounts_loop now oracle sep default_status (n + 1) db rest
    else
      match parseAccountLine line sep.data with
      | some acc =>
        if !acc.email.isEmpty then
          let res := upsert_account now (oracle n) db (String.mk acc.email)
            (some (String.mk acc.password))
            (Option.map String.mk acc.recovery_email)
            (Option.map String.mk acc.secret_key)
            (Option.map String.mk acc.verification_link)
            none (some default_status) none
          match res.2 with
          | none =>
            let k := import_accounts_loop now oracle sep default_status
              (n + 1) res.1 rest
            (k.1, k.2.1 + 1, k.2.2.1, k.2.2.2)
          | some ex =>
            let k := import_accounts_loop now oracle sep default_status
              (n + 1) res.1 rest
            (k.1, k.2.1, k.2.2.1 + 1,
              ("Line " ++ toString n ++ ": " ++ ex) :: k.2.2.2)
        else
          let k := import_accounts_loop now oracle sep default_status
            (n + 1) db rest
          (k.1, k.2.1, k.2.2.1 + 1, importErrMsg n l :: k.2.2.2)
      | none =>
        let k := import_accounts_loop now oracle sep default_status
          (n + 1) db rest
        (k.1, k.2.1, k.2.2.1 + 1, importErrMsg n l :: k.2.2.2)

/-- `DBManager.import_accounts_from_text(text, separator, default_status)`
over the post-split lines, starting the enumeration at 1. -/
def import_accounts_from_text (now : String) (oracle : Nat → Option String)
    (db : DBState) (lines : List String) (sep default_status : String) :
    DBState × Nat × Nat × List String :=
  import_accounts_loop now oracle sep default_status 1 db lines

/-! ## `DBManager.init_db`: schema-level model

`init_db` manipulates the database schema (`CREATE TABLE IF NOT EXISTS`,
`PRAGMA table_info`, `ALTER TABLE ... ADD COLUMN`); here a database is an
association list from table name to a table (column-name list plus rows,
one optional value per column).  `CREATE TABLE IF NOT EXISTS` appends a
new empty table only when the name is absent; `ALTER TABLE ADD COLUMN`
appends the column name and a `NULL` cell to every existing row. -/

/-- A table: its column names and its rows. -/
structure SqlTable where
  cols : List String
  rows : List (List (Option String))
deriving DecidableEq, Repr

/-- A database schema: tables by name, in creation order. -/
abbrev SqlSchema := List (String × SqlTable)

/-- `CREATE TABLE IF NOT EXISTS name (cols...)`. -/
def createTableIfNotExists (s : SqlSchema) (name : String)
    (cols : List String) : SqlSchema :=
  if (List.lookup name s).isSome then s else s ++ [(name, ⟨cols, []⟩)]

/-- Membership of a column name in a `PRAGMA table_info` column list. -/
def hasColName : List String → String → Bool
  | [], _ => false
  | c :: rest, col => c == col || hasColName rest col

/-- The `if '<col>' not in columns` test of `init_db`. -/
def tableHasCol (s : SqlSchema) (name col : String) : Bool :=
  match List.lookup name s with
  | some t => hasColName t.cols col
  | none => false

/-- `ALTER TABLE name ADD COLUMN col`. -/
def addColumn (s : SqlSchema) (name col : String) : SqlSchema :=
  s.map (fun p =>
    match p.1 == name with
    | true => (p.1, ⟨p.2.cols ++ [col], p.2.rows.map (fun r => r ++ [none])⟩)
    | false => p)

/-- `PRAGMA table_info` followed by a guarded `ALTER TABLE ADD COLUMN`. -/
def addColumnIfAbsent (s : SqlSchema) (name col : String) : SqlSchema :=
  if tableHasCol s name col then s else addColumn s name col

/-- Columns of `CREATE TABLE IF NOT EXISTS accounts`. -/
def accountsCols : List String :=
  ["email", "password", "recovery_email", "secret_key", "verification_link",
   "browser_id", "status", "message", "created_at", "updated_at"]

/-- Columns of `CREATE TABLE IF NOT EXISTS proxies`. -/
def proxiesCols : List String :=
  ["id", "proxy_type", "host", "port", "username", "password", "remark",
   "is_used", "used_by", "created_at", "updated_at"]

/-- Columns of `CREATE TABLE IF NOT EXISTS cards`. -/
def cardsCols : List String :=
  ["id", "card_number", "exp_month", "exp_year", "cvv", "holder_name",
   "zip_code", "country", "state", "city", "address", "billing_address",
   "remark", "usage_count", "max_usage", "is_active", "created_at",
   "updated_at"]

/-- Columns of `CREATE TABLE IF NOT EXISTS settings`. -/
def settingsCols : List String :=
  ["key", "value", "description", "updated_at"]

/-- Columns of `CREATE TABLE IF NOT EXISTS operation_logs`. -/
def logsCols : List String :=
  ["id", "operation_type", "target_email", "details", "status", "created_at"]

/-- `DBManager.init_db()`: the statements of the source in order — create
`accounts`, backfill its eight compatibility columns, create `proxies`
and `cards`, backfill the five card columns, create `settings` and
`operation_logs`. -/
def init_db (s : SqlSchema) : SqlSchema :=
  let s := createTableIfNotExists s "accounts" accountsCols
  let s := addColumnIfAbsent s "accounts" "browser_id"
  let s := addColumnIfAbsent s "accounts" "created_at"
  let s := addColumnIfAbsent s "accounts" "secret_updated_at"
  let s := addColumnIfAbsent s "accounts" "recovery_updated_at"
  let s := addColumnIfAbsent s "accounts" "sheerid_verified_at"
  let s := addColumnIfAbsent s "accounts" "bind_card_at"
  let s := addColumnIfAbsent s "accounts" "age_verified_at"
  let s := addColumnIfAbsent s "accounts" "sheerlink_extracted_at"
  let s := createTableIfNotExists s "proxies" proxiesCols
  let s := createTableIfNotExists s "cards" cardsCols
  let s := addColumnIfAbsent s "cards" "zip_code"
  let s := addColumnIfAbsent s "cards" "country"
  let s := addColumnIfAbsent s "cards" "state"
  let s := addColumnIfAbsent s "cards" "city"
  let s := addColumnIfAbsent s "cards" "address"
  let s := createTableIfNotExists s "settings" settingsCols
  let s := createTableIfNotExists s "operation_logs" logsCols
  s

/-- A schema on which every conditional statement of `init_db` is a
no-op: the five tables exist, and the thirteen backfilled columns are
present. -/
def initializedDB (s : SqlSchema) : Bool :=
  (List.lookup "accounts" s).isSome &&
  ((List.lookup "proxies" s).isSome &&
  ((List.lookup "cards" s).isSome &&
  ((List.lookup "settings" s).isSome &&
  ((List.lookup "operation_logs" s).isSome &&
  (tableHasCol s "accounts" "browser_id" &&
  (tableHasCol s "accounts" "created_at" &&
  (tableHasCol s "accounts" "secret_updated_at" &&
  (tableHasCol s "accounts" "recovery_updated_at" &&
  (tableHasCol s "accounts" "sheerid_verified_at" &&
  (tableHasCol s "accounts" "bind_card_at" &&
  (tableHasCol s "accounts" "age_verified_at" &&
  (tableHasCol s "accounts" "sheerlink_extracted_at" &&
  (tableHasCol s "cards" "zip_code" &&
  (tableHasCol s "cards" "country" &&
  (tableHasCol s "cards" "state" &&
  (tableHasCol s "cards" "city" &&
  tableHasCol s "cards" "address"))))))))))))))))

/-! ## The module-level lock of `database.py`

`database.py` is the only file of the repository that touches `sqlite3`
(no other module executes SQL), and every `cursor.execute` in it occurs
inside a `with lock:` block for the single module-level `threading.Lock`.
Each `DBManager` method is transcribed below into a statement tree whose
leaves are its SQL statements; `withLock` is `with lock:`, and `branch`
is a data-dependent conditional (both arms are kept).  Running a
statement yields the trace of lock acquisitions, releases and SQL
executions; the claim is that in every trace every SQL action happens at
positive lock depth. -/

/-- Statement shapes of a `DBManager` method body. -/
inductive DbStmt where
  | skip : DbStmt
  | sql (q : String) : DbStmt
  | seq (a b : DbStmt) : DbStmt
  | branch (a b : DbStmt) : DbStmt
  | withLock (body : DbStmt) : DbStmt
deriving DecidableEq, Repr

/-- Events of an execution trace. -/
inductive LockAction where
  | acquire : LockAction
  | release : LockAction
  | sql (q : String) : LockAction
deriving DecidableEq, Repr

/-- Run a statement; `env` supplies the outcomes of the data-dependent
conditionals (`branch` consumes one boolean, true picks the first arm). -/
def runStmt : DbStmt → List Bool → List LockAction × List Bool
  | .skip, env => ([], env)
  | .sql q, env => ([.sql q], env)
  | .seq a b, env =>
    let ra := runStmt a env
    let rb := runStmt b ra.2
    (ra.1 ++ rb.1, rb.2)
  | .branch a b, env =>
    match env with
    | [] => runStmt a []
    | true :: env' => runStmt a env'
    | false :: env' => runStmt b env'
  | .withLock body, env =>
    let r := runStmt body env
    (.acquire :: r.1 ++ [.release], r.2)

/-- Starting from lock depth `d`, every SQL action of the trace happens
at positive depth (and releases never outnumber acquisitions). -/
def sqlLocked : Nat → List LockAction → Bool
  | _, [] => true
  | d, .acquire :: rest => sqlLocked (d + 1) rest
  | d, .release :: rest =>
    match d with
    | 0 => false
    | d' + 1 => sqlLocked d' rest
  | d, .sql _ :: rest => decide (0 < d) && sqlLocked d rest

/-- Syntactic check: every `sql` leaf sits inside some `withLock`. -/
def lockSafe : DbStmt → Bool
  | .skip => true
  | .sql _ => false
  | .seq a b => lockSafe a && lockSafe b
  | .branch a b => lockSafe a && lockSafe b
  | .withLock _ => true

/-- A method that is one SQL statement under `with lock:` — the dominant
shape in `database.py`. -/
def lockedSql (q : String) : DbStmt :=
  .withLock (.sql q)

/-- Right-nested sequencing of a statement list. -/
def seqAll (l : List DbStmt) : DbStmt :=
  l.foldr DbStmt.seq .skip

/-- The body of `upsert_account` (also run by its delegates
`update_status`, `update_account_status`, `update_sheerid_link`, and by
each loop iteration of `import_accounts_from_text`): early return on a
falsy email, else under the lock a SELECT then either a guarded UPDATE or
an INSERT. -/
def upsertAccountStmt : DbStmt :=
  .branch .skip
    (.withLock (.seq (.sql "SELECT * FROM accounts WHERE email = ?")
      (.branch
        (.branch (.sql "UPDATE accounts SET <fields> WHERE email = ?") .skip)
        (.sql "INSERT INTO accounts VALUES (?, ?, ?, ?, ?, ?, ?, ?)"))))

/-- The body of `init_db`: all table creation, `PRAGMA` reads and guarded
`ALTER TABLE` statements under one `with lock:`. -/
def initDbStmt : DbStmt :=
  .withLock (seqAll
    ([.sql "CREATE TABLE IF NOT EXISTS accounts",
      .sql "PRAGMA table_info(accounts)"] ++
     (List.replicate 8 (.branch (.sql "ALTER TABLE accounts ADD COLUMN <col>") .skip)) ++
     [.sql "CREATE TABLE IF NOT EXISTS proxies",
      .sql "CREATE TABLE IF NOT EXISTS cards",
      .sql "PRAGMA table_info(cards)"] ++
     (List.replicate 5 (.branch (.sql "ALTER TABLE cards ADD COLUMN <col>") .skip)) ++
     [.sql "CREATE TABLE IF NOT EXISTS settings",
      .sql "CREATE TABLE IF NOT EXISTS operation_logs"]))

/-- One iteration of the `import_from_browsers` background loop: SELECT
then a guarded UPDATE or an INSERT, all under one `with lock:`. -/
def importFromBrowsersStmt : DbStmt :=
  .withLock (.seq
    (.sql "SELECT browser_id, password, secret_key FROM accounts WHERE email = ?")
    (.branch
      (.branch (.sql "UPDATE accounts SET <updates> WHERE email = ?") .skip)
      (.sql "INSERT INTO accounts VALUES (?, ?, ?, ?, ?, ?, ?, ?)")))

/-- Every `DBManager` method that executes SQL (for the three import
helpers, the per-line/per-browser loop body; file writes of
`export_to_files` are not SQL). -/
def dbOperations : List (String × DbStmt) :=
  [("init_db", initDbStmt),
   ("upsert_account", upsertAccountStmt),
   ("update_status", upsertAccountStmt),
   ("update_sheerid_link", upsertAccountStmt),
   ("update_account_status", upsertAccountStmt),
   ("import_accounts_from_text", upsertAccountStmt),
   ("delete_account", lockedSql "DELETE FROM accounts WHERE email = ?"),
   ("get_accounts_by_status", lockedSql "SELECT * FROM accounts WHERE status = ?"),
   ("get_accounts_without_browser",
     lockedSql "SELECT * FROM accounts WHERE browser_id IS NULL OR browser_id = ''"),
   ("get_all_accounts", lockedSql "SELECT * FROM accounts ORDER BY updated_at DESC"),
   ("update_account_browser_id",
     lockedSql "UPDATE accounts SET browser_id = ?, updated_at = ? WHERE email = ?"),
   ("update_account_recovery_email",
     lockedSql "UPDATE accounts SET recovery_email = ?, recovery_updated_at = ?, updated_at = ? WHERE email = ?"),
   ("update_account_secret_key",
     lockedSql "UPDATE accounts SET secret_key = ?, secret_updated_at = ?, updated_at = ? WHERE email = ?"),
   ("update_operation_timestamp",
     .branch .skip
       (lockedSql "UPDATE accounts SET <field> = ?, updated_at = ? WHERE browser_id = ?")),
   ("get_accounts_count_by_status",
     lockedSql "SELECT status, COUNT(*) as count FROM accounts GROUP BY status"),
   ("get_account_by_browser_id", lockedSql "SELECT * FROM accounts WHERE browser_id = ?"),
   ("get_sheerid_link_by_browser",
     lockedSql "SELECT verification_link FROM accounts WHERE browser_id = ?"),
   ("update_account_status_by_sheerid",
     lockedSql "UPDATE accounts SET status = ?, updated_at = ? WHERE verification_link LIKE ?"),
   ("get_account_by_sheerid",
     .branch .skip (lockedSql "SELECT * FROM accounts WHERE verification_link LIKE ?")),
   ("import_proxies_from_text", lockedSql "INSERT INTO proxies VALUES (?, ?, ?, ?, ?, ?)"),
   ("add_proxy", lockedSql "INSERT INTO proxies VALUES (?, ?, ?, ?, ?, ?)"),
   ("get_all_proxies", lockedSql "SELECT * FROM proxies ORDER BY id"),
   ("get_available_proxies", lockedSql "SELECT * FROM proxies WHERE is_used = 0"),
   ("mark_proxy_used", lockedSql "UPDATE proxies SET is_used = 1, used_by = ?, updated_at = ? WHERE id = ?"),
   ("delete_proxy", lockedSql "DELETE FROM proxies WHERE id = ?"),
   ("clear_all_proxies", lockedSql "DELETE FROM proxies"),
   ("import_cards_from_text", lockedSql "INSERT INTO cards VALUES (?, ?, ?, ?, ?, ?, ?, ?, ?, ?, ?, ?, ?)"),
   ("add_card", lockedSql "INSERT INTO cards VALUES (?, ?, ?, ?, ?, ?, ?, ?, ?, ?, ?, ?, ?)"),
   ("update_card",
     .branch .skip (lockedSql "UPDATE cards SET <set_sql>, updated_at = CURRENT_TIMESTAMP WHERE id = ?")),
   ("get_all_cards", lockedSql "SELECT * FROM cards ORDER BY id"),
   ("get_available_cards",
     lockedSql "SELECT * FROM cards WHERE is_active = 1 AND usage_count < max_usage ORDER BY usage_count ASC, id ASC"),
   ("increment_card_usage",
     lockedSql "UPDATE cards SET usage_count = usage_count + 1, updated_at = CURRENT_TIMESTAMP WHERE id = ?"),
   ("delete_card", lockedSql "DELETE FROM cards WHERE id = ?"),
   ("clear_all_cards", lockedSql "DELETE FROM cards"),
   ("set_card_active", lockedSql "UPDATE cards SET is_active = ?, updated_at = CURRENT_TIMESTAMP WHERE id = ?"),
   ("get_setting", lockedSql "SELECT value FROM settings WHERE key = ?"),
   ("set_setting", lockedSql "INSERT OR REPLACE INTO settings VALUES (?, ?, ?, ?)"),
   ("get_all_settings", lockedSql "SELECT * FROM settings"),
   ("delete_setting", lockedSql "DELETE FROM settings WHERE key = ?"),
   ("log_operation", lockedSql "INSERT INTO operation_logs VALUES (?, ?, ?, ?)"),
   ("add_log", lockedSql "INSERT INTO operation_logs VALUES (?, ?, ?, ?)"),
   ("get_recent_logs", lockedSql "SELECT * FROM operation_logs ORDER BY created_at DESC LIMIT ?"),
   ("export_to_files", .withLock (.sql "SELECT * FROM accounts")),
   ("import_from_browsers", importFromBrowsersStmt)]

/-! ## `DBManager.export_to_files`: line construction

For each non-running account row, `export_to_files` writes
`email`, then `----password`, `----recovery_email`, `----secret_key`,
each appended only when the column is truthy. -/

/-- The characters of the `----` separator. -/
def dashSep : List Char := "----".data

/-- The `line_acc` built by `export_to_files` for one account row. -/
def exportAccountLine (email : String)
    (password recovery_email secret_key : Option String) : String :=
  let l1 := email
  let l2 := match password with
            | some p => if p = "" then l1 else l1 ++ "----" ++ p
            | none => l1
  let l3 := match recovery_email with
            | some r => if r = "" then l2 else l2 ++ "----" ++ r
            | none => l2
  let l4 := match secret_key with
            | some k => if k = "" then l3 else l3 ++ "----" ++ k
            | none => l3
  l4

/-- The field constraints of claim C8: non-empty, no whitespace, no `#`,
no `----` substring, no `http` substring, and not a date range. -/
def exportableField (s : String) : Bool :=
  !s.data.isEmpty &&
  s.data.all (fun c => !pyWS c && c != '#') &&
  !hasSub "----".data s.data &&
  !hasSub "http".data s.data &&
  !isDateRange s.data

-- ========================= DEFINITIONS ABOVE / THEOREMS BELOW =========================

/-! ## Theorems -/

/-! ### C1: `parse_account_string` / `_parse_account_line` -/

/-- If comment stripping leaves nothing, the computed field list is empty. -/
theorem accountParts_nil_of_l2_nil (line sep : List Char)
    (h : accountCommentStrip line = []) :
    accountParts line sep = [] := by
  unfold accountParts accountLinkSplit
  rw [h]
  rfl

/-- A whitespace-only line strips to nothing through the comment stage. -/
theorem accountCommentStrip_nil_of_strip_nil (line : List Char)
    (h : pyStrip line = []) : accountCommentStrip line = [] := by
  unfold accountCommentStrip
  rw [h]
  rfl

theorem assignAccountFields_eq_amended_body (link : Option (List Char)) :
    ∀ parts : List (List Char),
    assignAccountFields link parts =
      (match parts with
       | p0 :: p1 :: rest =>
         if p0.contains '@' && p0.contains '.' then
           let rs : Option (List Char) × Option (List Char) :=
             match rest with
             | [] => (none, none)
             | p2 :: rest2 =>
               let r3 : Option (List Char) × Option (List Char) :=
                 if p2.contains '@' && p2.contains '.' then (some p2, none)
                 else (none, some p2)
               match rest2 with
               | [] => r3
               | p3 :: _ =>
                 match r3 with
                 | (none, s) =>
                   (if p3.contains '@' && p3.contains '.' then some p3 else none, s)
                 | (some r, _) => (some r, some p3)
           some ⟨p0, p1, rs.1, rs.2, link⟩
         else none
       | _ => none) := by
  intro parts
  match parts with
  | [] => rfl
  | [_] => rfl
  | p0 :: p1 :: [] => rfl
  | p0 :: p1 :: p2 :: [] => rfl
  | p0 :: p1 :: p2 :: p3 :: rest3 =>
    by_cases hc : (p2.contains '@' && p2.contains '.') = true
    · simp only [assignAccountFields, hc, if_true]
    · simp only [assignAccountFields, Bool.not_eq_true] at *
      simp only [assignAccountFields, hc, if_false, Bool.false_eq_true]

/-- C1 (amended): for every input line and separator,
`parse_account_string` behaves as the claim describes, with the fourth
field filling `recovery_email` only when it contains both `'@'` and `'.'`
(rather than unconditionally filling the unset slot). -/
theorem C1_parse_account_string_amended (line sep : String) :
    parse_account_string line sep = claimParseAmended line sep := by
  unfold parse_account_string parseAccountLine claimParseAmended
  by_cases h1 : pyStrip line.data = []
  · rw [accountParts_nil_of_l2_nil line.data sep.data
      (accountCommentStrip_nil_of_strip_nil line.data h1)]
    rw [if_pos h1]
  · by_cases h2 : accountCommentStrip line.data = []
    · rw [accountParts_nil_of_l2_nil line.data sep.data h2]
      rw [if_neg h1, if_pos h2]
    · rw [if_neg h1, if_neg h2]
      rw [assignAccountFields_eq_amended_body]

/-- C1 counterexample: on `a@b.c----pw----AAAA----BBBB` the code leaves
`recovery_email` unset (the fourth field `BBBB` lacks `'@'`/`'.'`), while
the claim as stated fills the still-unset `recovery_email` with `BBBB`. -/
theorem C1_parse_account_string_counterexample :
    parse_account_string "a@b.c----pw----AAAA----BBBB" "----" ≠
      claimParseStated "a@b.c----pw----AAAA----BBBB" "----" := by
  decide

/-! ### C9: `extract_verification_id` -/

/-- Reversal does not change emptiness. -/
theorem isEmpty_reverse_eq (L : List Char) : L.reverse.isEmpty = L.isEmpty := by
  cases L with
  | nil => rfl
  | cons d s =>
    rw [List.reverse_cons]
    cases h : s.reverse ++ [d] with
    | nil => exact absurd h (by simp)
    | cons c r => rfl

/-- The Python `$` anchor fallback agrees with the "alphanumeric apart
from at most one trailing newline" description. -/
theorem fullAlnumDollar_eq_amended (l : List Char) :
    fullAlnumDollar l =
      ((!l.isEmpty && l.all isAlnumAscii) ||
        (l.getLast? == some '\n' && !l.dropLast.isEmpty &&
          l.dropLast.all isAlnumAscii)) := by
  rcases l.eq_nil_or_concat with rfl | ⟨L, a, rfl⟩
  · rfl
  · unfold fullAlnumDollar
    simp only [List.concat_eq_append]
    rw [List.reverse_concat]
    simp only [List.getLast?_concat, List.dropLast_concat, List.all_reverse,
      isEmpty_reverse_eq]
    rfl

/-- C9 (amended): `extract_verification_id` is total and pure; it returns
the `verificationId=` query parameter value if present, else the
alphanumeric token after `verify/`, else the whole input when the input is
non-empty and entirely alphanumeric apart from at most one trailing
newline, else `None`; `None` and the empty string yield `None`. -/
theorem C9_extract_verification_id_amended (x : Option String) :
    extract_verification_id x = claimExtractAmended x := by
  cases x with
  | none => rfl
  | some s =>
    unfold extract_verification_id claimExtractAmended
    simp only [fullAlnumDollar_eq_amended]

/-- C9 counterexample: on the input `"abc\n"` the code returns the whole
input (Python's `$` matches before the trailing newline), while the claim
as stated demands `None` since the input is not entirely alphanumeric. -/
theorem C9_extract_verification_id_counterexample :
    extract_verification_id (some "abc\n") ≠ claimExtractStated (some "abc\n") := by
  decide

/-! ### C6: backend selection -/

/-- `_normalize_backend` maps every string to `bitbrowser`, `geekez`, or
nothing. -/
theorem normalize_backend_range (s : String) :
    normalize_backend s = none ∨ normalize_backend s = some "bitbrowser" ∨
      normalize_backend s = some "geekez" := by
  simp only [normalize_backend]
  split
  · exact Or.inl rfl
  · split
    · rename_i hc
      rcases Bool.or_eq_true _ _ |>.mp hc with h | h
      · exact Or.inr (Or.inl (by rw [eq_of_beq h]))
      · exact Or.inr (Or.inr (by rw [eq_of_beq h]))
    · exact Or.inl rfl

/-- C6: backend selection is total over exactly the two backends, with the
preference order environment value, then settings value, then the default
`bitbrowser`; and `_normalize_backend` maps every string to one of the two
canonical names or to nothing. -/
theorem C6_get_backend_total (env : String) (fileBackend : Option String) :
    (get_backend env fileBackend = "bitbrowser" ∨
      get_backend env fileBackend = "geekez") ∧
    (∀ b, normalize_backend env = some b → get_backend env fileBackend = b) ∧
    (normalize_backend env = none →
      ∀ raw b, fileBackend = some raw → normalize_backend raw = some b →
        get_backend env fileBackend = b) ∧
    (normalize_backend env = none →
      (∀ raw, fileBackend = some raw → normalize_backend raw = none) →
      get_backend env fileBackend = "bitbrowser") ∧
    (∀ s : String, normalize_backend s = none ∨
      normalize_backend s = some "bitbrowser" ∨
      normalize_backend s = some "geekez") := by
  refine ⟨?_, ?_, ?_, ?_, fun s => normalize_backend_range s⟩
  · rcases normalize_backend_range env with h | h | h
    · cases fileBackend with
      | none => simp [get_backend, h]
      | some raw =>
        rcases normalize_backend_range raw with h2 | h2 | h2 <;>
          simp [get_backend, h, h2]
    · simp [get_backend, h]
    · simp [get_backend, h]
  · intro b hb; simp [get_backend, hb]
  · intro h raw b hraw hb
    subst hraw
    simp [get_backend, h, hb]
  · intro h hall
    cases fileBackend with
    | none => simp [get_backend, h]
    | some raw => simp [get_backend, h, hall raw rfl]

/-- C6 witness: concrete instances of the preference order. -/
theorem C6_get_backend_total_witness :
    get_backend " GEEK " (some "bit") = "geekez" ∧
    get_backend "nope" (some "Bit_Browser") = "bitbrowser" ∧
    get_backend "nope" none = "bitbrowser" := by
  refine ⟨(C6_get_backend_total " GEEK " (some "bit")).2.1 "geekez" (by decide),
    (C6_get_backend_total "nope" (some "Bit_Browser")).2.2.1 (by decide)
      "Bit_Browser" "bitbrowser" rfl (by decide),
    (C6_get_backend_total "nope" none).2.2.2.1 (by decide)
      (fun raw h => Option.noConfusion h)⟩

/-! ### C7: `detect_google_one_status_dom` -/

/-- Each polling round yields no result, one of the three phrase-list
statuses, or a link result. -/
theorem detectRound_enum (r : G1Round) :
    detectRound r = none ∨ detectRound r = some ("subscribed", none) ∨
    detectRound r = some ("verified", none) ∨
    detectRound r = some ("ineligible", none) ∨
    ∃ href, detectRound r = some ("link_ready", href) := by
  unfold detectRound
  split
  · exact Or.inr (Or.inl rfl)
  · split
    · exact Or.inr (Or.inr (Or.inl rfl))
    · split
      · exact Or.inr (Or.inr (Or.inr (Or.inl rfl)))
      · split
        · exact Or.inr (Or.inr (Or.inr (Or.inl rfl)))
        · split
          · split
            · exact Or.inr (Or.inr (Or.inl rfl))
            · exact Or.inr (Or.inr (Or.inr (Or.inr ⟨_, rfl⟩)))
          · exact Or.inl rfl

theorem detect_status_enum (rounds : List G1Round) :
    (detect_google_one_status_dom rounds).1 = "subscribed" ∨
    (detect_google_one_status_dom rounds).1 = "verified" ∨
    (detect_google_one_status_dom rounds).1 = "link_ready" ∨
    (detect_google_one_status_dom rounds).1 = "ineligible" ∨
    (detect_google_one_status_dom rounds).1 = "timeout" := by
  induction rounds with
  | nil => exact Or.inr (Or.inr (Or.inr (Or.inr rfl)))
  | cons r rest ih =>
    unfold detect_google_one_status_dom
    rcases detectRound_enum r with h | h | h | h | ⟨href, h⟩ <;> rw [h]
    · exact ih
    · exact Or.inl rfl
    · exact Or.inr (Or.inl rfl)
    · exact Or.inr (Or.inr (Or.inr (Or.inl rfl)))
    · exact Or.inr (Or.inr (Or.inl rfl))

theorem detect_link_only_link_ready (rounds : List G1Round) :
    (detect_google_one_status_dom rounds).2 ≠ none →
      (detect_google_one_status_dom rounds).1 = "link_ready" := by
  induction rounds with
  | nil => intro h; exact absurd rfl h
  | cons r rest ih =>
    unfold detect_google_one_status_dom
    rcases detectRound_enum r with h | h | h | h | ⟨href, h⟩ <;> rw [h]
    · exact ih
    · intro h2; exact absurd rfl h2
    · intro h2; exact absurd rfl h2
    · intro h2; exact absurd rfl h2
    · intro _; rfl

theorem detect_timeout_iff_no_match (rounds : List G1Round) :
    (detect_google_one_status_dom rounds).1 = "timeout" ↔
      ∀ r ∈ rounds, detectRound r = none := by
  induction rounds with
  | nil => simp [detect_google_one_status_dom]
  | cons r rest ih =>
    unfold detect_google_one_status_dom
    rcases detectRound_enum r with h | h | h | h | ⟨href, h⟩ <;> rw [h]
    · simp only [List.forall_mem_cons, h, true_and]
      exact ih
    · exact iff_of_false (show ¬(("subscribed" : String) = "timeout") by decide) (by
        intro hall
        exact absurd (hall r (List.mem_cons_self r rest)) (by rw [h]; simp))
    · exact iff_of_false (show ¬(("verified" : String) = "timeout") by decide) (by
        intro hall
        exact absurd (hall r (List.mem_cons_self r rest)) (by rw [h]; simp))
    · exact iff_of_false (show ¬(("ineligible" : String) = "timeout") by decide) (by
        intro hall
        exact absurd (hall r (List.mem_cons_self r rest)) (by rw [h]; simp))
    · exact iff_of_false (show ¬(("link_ready" : String) = "timeout") by decide) (by
        intro hall
        exact absurd (hall r (List.mem_cons_self r rest)) (by rw [h]; simp))

/-- C7: the detector's status is always one of exactly `subscribed`,
`verified`, `link_ready`, `ineligible`, `timeout`; a link is returned only
with `link_ready`; within a round the phrase lists are consulted in the
fixed order subscribed, verified, ineligible before the SheerID link; and
`timeout` is returned exactly when every polling round the timeout allows
matched nothing. -/
theorem C7_detect_google_one_status (rounds : List G1Round) :
    ((detect_google_one_status_dom rounds).1 = "subscribed" ∨
     (detect_google_one_status_dom rounds).1 = "verified" ∨
     (detect_google_one_status_dom rounds).1 = "link_ready" ∨
     (detect_google_one_status_dom rounds).1 = "ineligible" ∨
     (detect_google_one_status_dom rounds).1 = "timeout") ∧
    ((detect_google_one_status_dom rounds).2 ≠ none →
      (detect_google_one_status_dom rounds).1 = "link_ready") ∧
    ((detect_google_one_status_dom rounds).1 = "timeout" ↔
      ∀ r ∈ rounds, detectRound r = none) ∧
    (∀ r : G1Round, r.subscribed = true →
      detectRound r = some ("subscribed", none)) ∧
    (∀ r : G1Round, r.subscribed = false → r.verified = true →
      detectRound r = some ("verified", none)) ∧
    (∀ r : G1Round, r.subscribed = false → r.verified = false →
      r.ineligible = true ∨ r.ineligibleFallback = true →
      detectRound r = some ("ineligible", none)) := by
  refine ⟨detect_status_enum rounds, detect_link_only_link_ready rounds,
    detect_timeout_iff_no_match rounds, ?_, ?_, ?_⟩
  · intro r h; simp [detectRound, h]
  · intro r h1 h2; simp [detectRound, h1, h2]
  · intro r h1 h2 h3
    rcases h3 with h3 | h3 <;> simp [detectRound, h1, h2, h3]

/-- C7 witness: concrete rounds exercising all the hypotheses. -/
theorem C7_detect_google_one_status_witness :
    (detect_google_one_status_dom
        [⟨false, false, false, false, some (some "u"), false⟩]).1 = "link_ready" ∧
    detectRound ⟨true, true, true, true, none, false⟩ = some ("subscribed", none) ∧
    detectRound ⟨false, true, true, true, none, false⟩ = some ("verified", none) ∧
    detectRound ⟨false, false, true, false, none, false⟩ = some ("ineligible", none) ∧
    ((detect_google_one_status_dom ([] : List G1Round)).1 = "timeout" ↔
      ∀ r ∈ ([] : List G1Round), detectRound r = none) :=
  ⟨(C7_detect_google_one_status
      [⟨false, false, false, false, some (some "u"), false⟩]).2.1 (by decide),
   (C7_detect_google_one_status []).2.2.2.1 _ rfl,
   (C7_detect_google_one_status []).2.2.2.2.1 _ rfl rfl,
   (C7_detect_google_one_status []).2.2.2.2.2 _ rfl rfl (Or.inl rfl),
   (C7_detect_google_one_status []).2.2.1⟩

/-! ### C3: `upsert_account` never propagates -/

/-- The catch-all `except` of `upsert_account`: no exception reaches the
caller, whatever the arguments and whatever the SQLite layer does. -/
theorem upsert_account_snd_none (now : String) (sqlFail : Option String)
    (db : DBState) (email : String)
    (p r s l b st m : Option String) :
    (upsert_account now sqlFail db email p r s l b st m).2 = none := by
  unfold upsert_account
  split
  · rfl
  · split
    · rfl
    · split
      · split
        · rfl
        · rfl
      · rfl

/-- C3: `upsert_account` never propagates an exception (its catch-all
`except` swallows every internal failure, after which the uncommitted
transaction leaves the state unchanged), `update_status` and
`update_account_status` therefore never raise either, and a falsy `email`
returns immediately without touching the database. -/
theorem C3_upsert_account_no_raise (now : String) (sqlFail : Option String)
    (db : DBState) (email status : String)
    (p r s l b st m msg : Option String) :
    (upsert_account now sqlFail db email p r s l b st m).2 = none ∧
    (email = "" → upsert_account now sqlFail db email p r s l b st m = (db, none)) ∧
    (update_status now sqlFail db email status msg).2 = none ∧
    (update_account_status now sqlFail db email status msg).2 = none := by
  refine ⟨upsert_account_snd_none now sqlFail db email p r s l b st m, ?_,
    upsert_account_snd_none now sqlFail db email none none none none none
      (some status) msg,
    upsert_account_snd_none now sqlFail db email none none none none none
      (some status) msg⟩
  intro he
  unfold upsert_account
  rw [if_pos he]

/-- C3 witness: a falsy email with an injected SQLite failure still
returns normally and leaves the empty store unchanged. -/
theorem C3_upsert_account_no_raise_witness :
    upsert_account "t" (some "boom") ⟨[], [], [], [], []⟩ "" none none none
        none none none none = (⟨[], [], [], [], []⟩, none) ∧
    (update_status "t" (some "boom") ⟨[], [], [], [], []⟩ "" "done" none).2 =
      none :=
  ⟨(C3_upsert_account_no_raise "t" (some "boom") ⟨[], [], [], [], []⟩ ""
      "done" none none none none none none none none).2.1 rfl,
   (C3_upsert_account_no_raise "t" (some "boom") ⟨[], [], [], [], []⟩ ""
      "done" none none none none none none none none).2.2.1⟩

/-! ### C10: `increment_card_usage` -/

/-- C10: `increment_card_usage(card_id)` bumps `usage_count` by exactly 1
and refreshes `updated_at` on every card whose `id` is `card_id` (`id` is
the `INTEGER PRIMARY KEY`, so at most one row), leaves all other columns
and all other rows of `cards` untouched in place, leaves the other four
tables untouched, and leaves the whole store unchanged when no card has
that id. -/
theorem C10_increment_card_usage (now : String) (db : DBState)
    (card_id : Nat) :
    (increment_card_usage now db card_id).accounts = db.accounts ∧
    (increment_card_usage now db card_id).proxies = db.proxies ∧
    (increment_card_usage now db card_id).settings = db.settings ∧
    (increment_card_usage now db card_id).logs = db.logs ∧
    (∀ i : Nat, (increment_card_usage now db card_id).cards[i]? =
      (db.cards[i]?).map (fun c =>
        if c.id = card_id then
          { c with usage_count := c.usage_count + 1, updated_at := now }
        else c)) ∧
    ((∀ c ∈ db.cards, c.id ≠ card_id) →
      increment_card_usage now db card_id = db) := by
  refine ⟨rfl, rfl, rfl, rfl, ?_, ?_⟩
  · intro i
    exact List.getElem?_map ..
  · intro hnone
    rcases db with ⟨a, p, c, s, lg⟩
    unfold increment_card_usage
    simp only [DBState.mk.injEq, and_true, true_and]
    have : ∀ x ∈ c, (if x.id = card_id then
        { x with usage_count := x.usage_count + 1, updated_at := now }
      else x) = id x := by
      intro x hx
      rw [if_neg (hnone x hx)]
      rfl
    rw [List.map_congr_left this, List.map_id]

/-- C10 witness: a two-card store where only card 2 is touched, and a
store without the id is unchanged. -/
theorem C10_increment_card_usage_witness :
    (increment_card_usage "t"
        ⟨[], [],
         [⟨1, "n1", "1", "30", "111", none, none, none, none, none, none,
            none, none, 0, 1, 1, "c", "u"⟩],
         [], []⟩ 7) =
      ⟨[], [],
       [⟨1, "n1", "1", "30", "111", none, none, none, none, none, none,
          none, none, 0, 1, 1, "c", "u"⟩],
       [], []⟩ :=
  (C10_increment_card_usage "t"
      ⟨[], [],
       [⟨1, "n1", "1", "30", "111", none, none, none, none, none, none,
          none, none, 0, 1, 1, "c", "u"⟩],
       [], []⟩ 7).2.2.2.2.2
    (by intro c hc; simp at hc; rw [hc]; decide)

/-! ### C5: `import_accounts_from_text` -/

/-- The loop invariant of the import loop, for any starting line number
and store: `len(errors) == error_count`, the success and error counts
count exactly the non-skipped lines that parse (resp. fail to parse), and
each error entry carries its line number. -/
theorem import_accounts_loop_spec (now : String) (oracle : Nat → Option String)
    (sep default_status : String) :
    ∀ (lines : List String) (n : Nat) (db : DBState),
    ((import_accounts_loop now oracle sep default_status n db lines).2.2.2).length =
      (import_accounts_loop now oracle sep default_status n db lines).2.2.1 ∧
    (import_accounts_loop now oracle sep default_status n db lines).2.1 =
      lines.countP (fun l => !importSkip l && importParseOk sep l) ∧
    (import_accounts_loop now oracle sep default_status n db lines).2.2.1 =
      lines.countP (fun l => !importSkip l && !importParseOk sep l) ∧
    (import_accounts_loop now oracle sep default_status n db lines).2.2.2 =
      (List.enumFrom n lines).filterMap (fun p =>
        if !importSkip p.2 && !importParseOk sep p.2 then
          some (importErrMsg p.1 p.2)
        else none) := by
  intro lines
  induction lines with
  | nil => intro n db; exact ⟨rfl, rfl, rfl, rfl⟩
  | cons l rest ih =>
    intro n db
    by_cases hskip : importSkip l = true
    · have e : import_accounts_loop now oracle sep default_status n db (l :: rest) =
          import_accounts_loop now oracle sep default_status (n + 1) db rest := by
        simp only [import_accounts_loop, hskip, if_true]
      obtain ⟨ih1, ih2, ih3, ih4⟩ := ih (n + 1) db
      rw [e]
      refine ⟨ih1, ?_, ?_, ?_⟩
      · rw [ih2, List.countP_cons]
        simp [hskip]
      · rw [ih3, List.countP_cons]
        simp [hskip]
      · rw [ih4, List.enumFrom_cons, List.filterMap_cons]
        simp [hskip]
    · rw [Bool.not_eq_true] at hskip
      cases hp : parseAccountLine (pyStrip l.data) sep.data with
      | none =>
        have hok : importParseOk sep l = false := by
          simp [importParseOk, hp]
        have e : import_accounts_loop now oracle sep default_status n db (l :: rest) =
            ((import_accounts_loop now oracle sep default_status (n + 1) db rest).1,
             (import_accounts_loop now oracle sep default_status (n + 1) db rest).2.1,
             (import_accounts_loop now oracle sep default_status (n + 1) db rest).2.2.1 + 1,
             importErrMsg n l ::
               (import_accounts_loop now oracle sep default_status (n + 1) db rest).2.2.2) := by
          simp only [import_accounts_loop, hskip, Bool.false_eq_true, if_false, hp]
        obtain ⟨ih1, ih2, ih3, ih4⟩ := ih (n + 1) db
        rw [e]
        refine ⟨?_, ?_, ?_, ?_⟩
        · simp [ih1]
        · rw [ih2, List.countP_cons]
          simp [hskip, hok]
        · rw [ih3, List.countP_cons]
          simp [hskip, hok]
        · rw [ih4, List.enumFrom_cons, List.filterMap_cons]
          simp [hskip, hok]
      | some acc =>
        by_cases he : acc.email.isEmpty = true
        · have hok : importParseOk sep l = false := by
            simp [importParseOk, hp, he]
          have e : import_accounts_loop now oracle sep default_status n db (l :: rest) =
              ((import_accounts_loop now oracle sep default_status (n + 1) db rest).1,
               (import_accounts_loop now oracle sep default_status (n + 1) db rest).2.1,
               (import_accounts_loop now oracle sep default_status (n + 1) db rest).2.2.1 + 1,
               importErrMsg n l ::
                 (import_accounts_loop now oracle sep default_status (n + 1) db rest).2.2.2) := by
            simp only [import_accounts_loop, hskip, Bool.false_eq_true, if_false, hp, he,
              Bool.not_true, if_false]
          obtain ⟨ih1, ih2, ih3, ih4⟩ := ih (n + 1) db
          rw [e]
          refine ⟨?_, ?_, ?_, ?_⟩
          · simp [ih1]
          · rw [ih2, List.countP_cons]
            simp [hskip, hok]
          · rw [ih3, List.countP_cons]
            simp [hskip, hok]
          · rw [ih4, List.enumFrom_cons, List.filterMap_cons]
            simp [hskip, hok]
        · have hok : importParseOk sep l = true := by
            simp [importParseOk, hp, he]
          have hu : (upsert_account now (oracle n) db (String.mk acc.email)
              (some (String.mk acc.password))
              (Option.map String.mk acc.recovery_email)
              (Option.map String.mk acc.secret_key)
              (Option.map String.mk acc.verification_link)
              none (some default_status) none).2 = none :=
            upsert_account_snd_none ..
          have e : import_accounts_loop now oracle sep default_status n db (l :: rest) =
              ((import_accounts_loop now oracle sep default_status (n + 1)
                  (upsert_account now (oracle n) db (String.mk acc.email)
                    (some (String.mk acc.password))
                    (Option.map String.mk acc.recovery_email)
                    (Option.map String.mk acc.secret_key)
                    (Option.map String.mk acc.verification_link)
                    none (some default_status) none).1 rest).1,
               (import_accounts_loop now oracle sep default_status (n + 1)
                  (upsert_account now (oracle n) db (String.mk acc.email)
                    (some (String.mk acc.password))
                    (Option.map String.mk acc.recovery_email)
                    (Option.map String.mk acc.secret_key)
                    (Option.map String.mk acc.verification_link)
                    none (some default_status) none).1 rest).2.1 + 1,
               (import_accounts_loop now oracle sep default_status (n + 1)
                  (upsert_account now (oracle n) db (String.mk acc.email)
                    (some (String.mk acc.password))
                    (Option.map String.mk acc.recovery_email)
                    (Option.map String.mk acc.secret_key)
                    (Option.map String.mk acc.verification_link)
                    none (some default_status) none).1 rest).2.2.1,
               (import_accounts_loop now oracle sep default_status (n + 1)
                  (upsert_account now (oracle n) db (String.mk acc.email)
                    (some (String.mk acc.password))
                    (Option.map String.mk acc.recovery_email)
                    (Option.map String.mk acc.secret_key)
                    (Option.map String.mk acc.verification_link)
                    none (some default_status) none).1 rest).2.2.2) := by
            simp only [import_accounts_loop, hskip, Bool.false_eq_true, if_false, hp, he,
              Bool.not_false, if_true, hu]
          obtain ⟨ih1, ih2, ih3, ih4⟩ := ih (n + 1)
            (upsert_account now (oracle n) db (String.mk acc.email)
              (some (String.mk acc.password))
              (Option.map String.mk acc.recovery_email)
              (Option.map String.mk acc.secret_key)
              (Option.map String.mk acc.verification_link)
              none (some default_status) none).1
          rw [e]
          refine ⟨?_, ?_, ?_, ?_⟩
          · simp [ih1]
          · rw [ih2, List.countP_cons]
            simp [hskip, hok]
          · rw [ih3, List.countP_cons]
            simp [hskip, hok]
          · rw [ih4, List.enumFrom_cons, List.filterMap_cons]
            simp [hskip, hok]

/-- C5: `import_accounts_from_text` returns `(success_count, error_count,
errors)` with `len(errors) == error_count`; skipped lines (empty, `#`, or
`分隔符=` after stripping) contribute to neither count; every processed
line that fails to parse to an account with a truthy email contributes
exactly one error entry tagged with its 1-based post-split line number;
and `success_count` counts exactly the lines whose parsed account was
upserted (the upsert itself never raises, so the upsert-failure arm is
unreachable for every failure oracle).  The model is total, so the
function never raises. -/
theorem C5_import_accounts_from_text (now : String)
    (oracle : Nat → Option String) (db : DBState) (lines : List String)
    (sep default_status : String) :
    ((import_accounts_from_text now oracle db lines sep default_status).2.2.2).length =
      (import_accounts_from_text now oracle db lines sep default_status).2.2.1 ∧
    (import_accounts_from_text now oracle db lines sep default_status).2.1 =
      lines.countP (fun l => !importSkip l && importParseOk sep l) ∧
    (import_accounts_from_text now oracle db lines sep default_status).2.2.1 =
      lines.countP (fun l => !importSkip l && !importParseOk sep l) ∧
    (import_accounts_from_text now oracle db lines sep default_status).2.2.2 =
      (List.enumFrom 1 lines).filterMap (fun p =>
        if !importSkip p.2 && !importParseOk sep p.2 then
          some (importErrMsg p.1 p.2)
        else none) :=
  import_accounts_loop_spec now oracle sep default_status lines 1 db

/-! ### C4: `init_db` -/

theorem lookup_append_of_isSome (n : String) (s t : SqlSchema)
    (h : (List.lookup n s).isSome = true) :
    List.lookup n (s ++ t) = List.lookup n s := by
  induction s with
  | nil => simp at h
  | cons p rest ih =>
    rcases p with ⟨k, tb⟩
    simp only [List.cons_append, List.lookup]
    cases hnk : (n == k) with
    | true => rfl
    | false =>
      simp only [List.lookup, hnk] at h
      exact ih h

theorem lookup_append_of_none (n : String) (s t : SqlSchema)
    (h : List.lookup n s = none) :
    List.lookup n (s ++ t) = List.lookup n t := by
  induction s with
  | nil => rfl
  | cons p rest ih =>
    rcases p with ⟨k, tb⟩
    simp only [List.cons_append, List.lookup]
    cases hnk : (n == k) with
    | true =>
      simp only [List.lookup, hnk] at h
      exact Option.noConfusion h
    | false =>
      simp only [List.lookup, hnk] at h
      exact ih h

theorem lookup_addColumn (n m col : String) (s : SqlSchema) :
    List.lookup n (addColumn s m col) =
      (List.lookup n s).map (fun t =>
        if n = m then
          (⟨t.cols ++ [col], t.rows.map (fun r => r ++ [none])⟩ : SqlTable)
        else t) := by
  induction s with
  | nil => rfl
  | cons p rest ih =>
    rcases p with ⟨k, tb⟩
    simp only [addColumn, List.map_cons] at ih ⊢
    cases hkm : (k == m) with
    | true =>
      have hkmeq : k = m := eq_of_beq hkm
      simp only [hkm, List.lookup]
      cases hnk : (n == k) with
      | true =>
        have hnkeq : n = k := eq_of_beq hnk
        subst hnkeq; subst hkmeq
        simp
      | false =>
        simp only [List.lookup, hnk]
        exact ih
    | false =>
      have hkmne : ¬ k = m := by
        intro he; subst he; simp at hkm
      simp only [hkm, List.lookup]
      cases hnk : (n == k) with
      | true =>
        have hnkeq : n = k := eq_of_beq hnk
        subst hnkeq
        simp only [List.lookup, Option.map_some']
        rw [if_neg hkmne]
      | false =>
        simp only [List.lookup, hnk]
        exact ih

theorem hasColName_append (xs ys : List String) (col : String)
    (h : hasColName xs col = true) : hasColName (xs ++ ys) col = true := by
  induction xs with
  | nil => simp [hasColName] at h
  | cons c rest ih =>
    simp only [hasColName, Bool.or_eq_true, List.cons_append] at h ⊢
    rcases h with h | h
    · exact Or.inl h
    · exact Or.inr (ih h)

theorem hasColName_concat (xs : List String) (col : String) :
    hasColName (xs ++ [col]) col = true := by
  induction xs with
  | nil => simp [hasColName]
  | cons c rest ih =>
    simp only [List.cons_append, hasColName, Bool.or_eq_true]
    exact Or.inr ih

theorem create_preserves_lookup (s : SqlSchema) (m : String)
    (cols : List String) (n : String)
    (h : (List.lookup n s).isSome = true) :
    (List.lookup n (createTableIfNotExists s m cols)).isSome = true := by
  unfold createTableIfNotExists
  split
  · exact h
  · rw [lookup_append_of_isSome n s _ h]
    exact h

theorem create_establishes (s : SqlSchema) (m : String) (cols : List String) :
    (List.lookup m (createTableIfNotExists s m cols)).isSome = true := by
  unfold createTableIfNotExists
  split
  · assumption
  · rename_i hno
    rw [lookup_append_of_none m s _
      (Option.not_isSome_iff_eq_none.mp (by simpa using hno))]
    simp [List.lookup]

theorem addIf_preserves_lookup (s : SqlSchema) (m c n : String)
    (h : (List.lookup n s).isSome = true) :
    (List.lookup n (addColumnIfAbsent s m c)).isSome = true := by
  unfold addColumnIfAbsent
  split
  · exact h
  · rw [lookup_addColumn]
    rcases Option.isSome_iff_exists.mp h with ⟨t, ht⟩
    rw [ht]
    rfl

theorem addIf_preserves_hasCol (s : SqlSchema) (m c' n c : String)
    (h : tableHasCol s n c = true) :
    tableHasCol (addColumnIfAbsent s m c') n c = true := by
  unfold addColumnIfAbsent
  split
  · exact h
  · unfold tableHasCol at h ⊢
    rw [lookup_addColumn]
    cases hl : List.lookup n s with
    | none => rw [hl] at h; simp at h
    | some t =>
      rw [hl] at h
      simp only [Option.map_some']
      by_cases hnm : n = m
      · rw [if_pos hnm]
        exact hasColName_append t.cols [c'] c h
      · rw [if_neg hnm]
        exact h

theorem addIf_establishes (s : SqlSchema) (m c : String)
    (h : (List.lookup m s).isSome = true) :
    tableHasCol (addColumnIfAbsent s m c) m c = true := by
  unfold addColumnIfAbsent
  split
  · assumption
  · unfold tableHasCol
    rw [lookup_addColumn]
    rcases Option.isSome_iff_exists.mp h with ⟨t, ht⟩
    rw [ht]
    simp only [Option.map_some', if_pos rfl]
    exact hasColName_concat t.cols c

theorem create_preserves_hasCol (s : SqlSchema) (m : String)
    (cols : List String) (n c : String) (h : tableHasCol s n c = true) :
    tableHasCol (createTableIfNotExists s m cols) n c = true := by
  unfold createTableIfNotExists
  split
  · exact h
  · unfold tableHasCol at h ⊢
    have hsome : (List.lookup n s).isSome = true := by
      cases hl : List.lookup n s with
      | none => rw [hl] at h; simp at h
      | some t => rfl
    rw [lookup_append_of_isSome n s _ hsome]
    exact h

theorem create_noop (s : SqlSchema) (m : String) (cols : List String)
    (h : (List.lookup m s).isSome = true) :
    createTableIfNotExists s m cols = s := by
  unfold createTableIfNotExists
  rw [if_pos h]

theorem addIf_noop (s : SqlSchema) (m c : String)
    (h : tableHasCol s m c = true) : addColumnIfAbsent s m c = s := by
  unfold addColumnIfAbsent
  rw [if_pos h]

set_option maxHeartbeats 2000000 in
theorem initializedDB_init_db (s : SqlSchema) :
    initializedDB (init_db s) = true := by
  simp only [initializedDB, init_db, Bool.and_eq_true]
  refine ⟨?_, ?_, ?_, ?_, ?_, ?_, ?_, ?_, ?_, ?_, ?_, ?_, ?_, ?_, ?_, ?_,
    ?_, ?_⟩
  -- the five table lookups
  · apply create_preserves_lookup
    apply create_preserves_lookup
    apply addIf_preserves_lookup
    apply addIf_preserves_lookup
    apply addIf_preserves_lookup
    apply addIf_preserves_lookup
    apply addIf_preserves_lookup
    apply create_preserves_lookup
    apply create_preserves_lookup
    apply addIf_preserves_lookup
    apply addIf_preserves_lookup
    apply addIf_preserves_lookup
    apply addIf_preserves_lookup
    apply addIf_preserves_lookup
    apply addIf_preserves_lookup
    apply addIf_preserves_lookup
    apply addIf_preserves_lookup
    exact create_establishes _ _ _
  · apply create_preserves_lookup
    apply create_preserves_lookup
    apply addIf_preserves_lookup
    apply addIf_preserves_lookup
    apply addIf_preserves_lookup
    apply addIf_preserves_lookup
    apply addIf_preserves_lookup
    apply create_preserves_lookup
    exact create_establishes _ _ _
  · apply create_preserves_lookup
    apply create_preserves_lookup
    apply addIf_preserves_lookup
    apply addIf_preserves_lookup
    apply addIf_preserves_lookup
    apply addIf_preserves_lookup
    apply addIf_preserves_lookup
    exact create_establishes _ _ _
  · apply create_preserves_lookup
    exact create_establishes _ _ _
  · exact create_establishes _ _ _
  -- the eight backfilled accounts columns
  · apply create_preserves_hasCol
    apply create_preserves_hasCol
    apply addIf_preserves_hasCol
    apply addIf_preserves_hasCol
    apply addIf_preserves_hasCol
    apply addIf_preserves_hasCol
    apply addIf_preserves_hasCol
    apply create_preserves_hasCol
    apply create_preserves_hasCol
    apply addIf_preserves_hasCol
    apply addIf_preserves_hasCol
    apply addIf_preserves_hasCol
    apply addIf_preserves_hasCol
    apply addIf_preserves_hasCol
    apply addIf_preserves_hasCol
    apply addIf_preserves_hasCol
    exact addIf_establishes _ _ _ (create_establishes _ _ _)
  · apply create_preserves_hasCol
    apply create_preserves_hasCol
    apply addIf_preserves_hasCol
    apply addIf_preserves_hasCol
    apply addIf_preserves_hasCol
    apply addIf_preserves_hasCol
    apply addIf_preserves_hasCol
    apply create_preserves_hasCol
    apply create_preserves_hasCol
    apply addIf_preserves_hasCol
    apply addIf_preserves_hasCol
    apply addIf_preserves_hasCol
    apply addIf_preserves_hasCol
    apply addIf_preserves_hasCol
    apply addIf_preserves_hasCol
    exact addIf_establishes _ _ _
      (addIf_preserves_lookup _ _ _ _ (create_establishes _ _ _))
  · apply create_preserves_hasCol
    apply create_preserves_hasCol
    apply addIf_preserves_hasCol
    apply addIf_preserves_hasCol
    apply addIf_preserves_hasCol
    apply addIf_preserves_hasCol
    apply addIf_preserves_hasCol
    apply create_preserves_hasCol
    apply create_preserves_hasCol
    apply addIf_preserves_hasCol
    apply addIf_preserves_hasCol
    apply addIf_preserves_hasCol
    apply addIf_preserves_hasCol
    apply addIf_preserves_hasCol
    exact addIf_establishes _ _ _
      (addIf_preserves_lookup _ _ _ _
        (addIf_preserves_lookup _ _ _ _ (create_establishes _ _ _)))
  · apply create_preserves_hasCol
    apply create_preserves_hasCol
    apply addIf_preserves_hasCol
    apply addIf_preserves_hasCol
    apply addIf_preserves_hasCol
    apply addIf_preserves_hasCol
    apply addIf_preserves_hasCol
    apply create_preserves_hasCol
    apply create_preserves_hasCol
    apply addIf_preserves_hasCol
    apply addIf_preserves_hasCol
    apply addIf_preserves_hasCol
    apply addIf_preserves_hasCol
    exact addIf_establishes _ _ _
      (addIf_preserves_lookup _ _ _ _
        (addIf_preserves_lookup _ _ _ _
          (addIf_preserves_lookup _ _ _ _ (create_establishes _ _ _))))
  · apply create_preserves_hasCol
    apply create_preserves_hasCol
    apply addIf_preserves_hasCol
    apply addIf_preserves_hasCol
    apply addIf_preserves_hasCol
    apply addIf_preserves_hasCol
    apply addIf_preserves_hasCol
    apply create_preserves_hasCol
    apply create_preserves_hasCol
    apply addIf_preserves_hasCol
    apply addIf_preserves_hasCol
    apply addIf_preserves_hasCol
    exact addIf_establishes _ _ _
      (addIf_preserves_lookup _ _ _ _
        (addIf_preserves_lookup _ _ _ _
          (addIf_preserves_lookup _ _ _ _
            (addIf_preserves_lookup _ _ _ _ (create_establishes _ _ _)))))
  · apply create_preserves_hasCol
    apply create_preserves_hasCol
    apply addIf_preserves_hasCol
    apply addIf_preserves_hasCol
    apply addIf_preserves_hasCol
    apply addIf_preserves_hasCol
    apply addIf_preserves_hasCol
    apply create_preserves_hasCol
    apply create_preserves_hasCol
    apply addIf_preserves_hasCol
    apply addIf_preserves_hasCol
    exact addIf_establishes _ _ _
      (addIf_preserves_lookup _ _ _ _
        (addIf_preserves_lookup _ _ _ _
          (addIf_preserves_lookup _ _ _ _
            (addIf_preserves_lookup _ _ _ _
              (addIf_preserves_lookup _ _ _ _ (create_establishes _ _ _))))))
  · apply create_preserves_hasCol
    apply create_preserves_hasCol
    apply addIf_preserves_hasCol
    apply addIf_preserves_hasCol
    apply addIf_preserves_hasCol
    apply addIf_preserves_hasCol
    apply addIf_preserves_hasCol
    apply create_preserves_hasCol
    apply create_preserves_hasCol
    apply addIf_preserves_hasCol
    exact addIf_establishes _ _ _
      (addIf_preserves_lookup _ _ _ _
        (addIf_preserves_lookup _ _ _ _
          (addIf_preserves_lookup _ _ _ _
            (addIf_preserves_lookup _ _ _ _
              (addIf_preserves_lookup _ _ _ _
                (addIf_preserves_lookup _ _ _ _
                  (create_establishes _ _ _)))))))
  · apply create_preserves_hasCol
    apply create_preserves_hasCol
    apply addIf_preserves_hasCol
    apply addIf_preserves_hasCol
    apply addIf_preserves_hasCol
    apply addIf_preserves_hasCol
    apply addIf_preserves_hasCol
    apply create_preserves_hasCol
    apply create_preserves_hasCol
    exact addIf_establishes _ _ _
      (addIf_preserves_lookup _ _ _ _
        (addIf_preserves_lookup _ _ _ _
          (addIf_preserves_lookup _ _ _ _
            (addIf_preserves_lookup _ _ _ _
              (addIf_preserves_lookup _ _ _ _
                (addIf_preserves_lookup _ _ _ _
                  (addIf_preserves_lookup _ _ _ _
                    (create_establishes _ _ _))))))))
  -- the five backfilled cards columns
  · apply create_preserves_hasCol
    apply create_preserves_hasCol
    apply addIf_preserves_hasCol
    apply addIf_preserves_hasCol
    apply addIf_preserves_hasCol
    apply addIf_preserves_hasCol
    exact addIf_establishes _ _ _ (create_establishes _ _ _)
  · apply create_preserves_hasCol
    apply create_preserves_hasCol
    apply addIf_preserves_hasCol
    apply addIf_preserves_hasCol
    apply addIf_preserves_hasCol
    exact addIf_establishes _ _ _
      (addIf_preserves_lookup _ _ _ _ (create_establishes _ _ _))
  · apply create_preserves_hasCol
    apply create_preserves_hasCol
    apply addIf_preserves_hasCol
    apply addIf_preserves_hasCol
    exact addIf_establishes _ _ _
      (addIf_preserves_lookup _ _ _ _
        (addIf_preserves_lookup _ _ _ _ (create_establishes _ _ _)))
  · apply create_preserves_hasCol
    apply create_preserves_hasCol
    apply addIf_preserves_hasCol
    exact addIf_establishes _ _ _
      (addIf_preserves_lookup _ _ _ _
        (addIf_preserves_lookup _ _ _ _
          (addIf_preserves_lookup _ _ _ _ (create_establishes _ _ _))))
  · apply create_preserves_hasCol
    apply create_preserves_hasCol
    exact addIf_establishes _ _ _
      (addIf_preserves_lookup _ _ _ _
        (addIf_preserves_lookup _ _ _ _
          (addIf_preserves_lookup _ _ _ _
            (addIf_preserves_lookup _ _ _ _ (create_establishes _ _ _)))))

theorem init_db_noop_of_initialized (s : SqlSchema)
    (h : initializedDB s = true) : init_db s = s := by
  simp only [initializedDB, Bool.and_eq_true] at h
  obtain ⟨hAcc, hProx, hCards, hSet, hLogs, hc1, hc2, hc3, hc4, hc5, hc6,
    hc7, hc8, hz1, hz2, hz3, hz4, hz5⟩ := h
  simp only [init_db]
  rw [create_noop s "accounts" accountsCols hAcc]
  rw [addIf_noop s "accounts" "browser_id" hc1]
  rw [addIf_noop s "accounts" "created_at" hc2]
  rw [addIf_noop s "accounts" "secret_updated_at" hc3]
  rw [addIf_noop s "accounts" "recovery_updated_at" hc4]
  rw [addIf_noop s "accounts" "sheerid_verified_at" hc5]
  rw [addIf_noop s "accounts" "bind_card_at" hc6]
  rw [addIf_noop s "accounts" "age_verified_at" hc7]
  rw [addIf_noop s "accounts" "sheerlink_extracted_at" hc8]
  rw [create_noop s "proxies" proxiesCols hProx]
  rw [create_noop s "cards" cardsCols hCards]
  rw [addIf_noop s "cards" "zip_code" hz1]
  rw [addIf_noop s "cards" "country" hz2]
  rw [addIf_noop s "cards" "state" hz3]
  rw [addIf_noop s "cards" "city" hz4]
  rw [addIf_noop s "cards" "address" hz5]
  rw [create_noop s "settings" settingsCols hSet]
  rw [create_noop s "operation_logs" logsCols hLogs]

/-- C4: `init_db` establishes exactly the five tables `accounts`,
`proxies`, `cards`, `settings`, `operation_logs` on a fresh database, and
is idempotent: a second run changes nothing, and on any already
initialized database (all five tables and all thirteen backfilled columns
present) it is the identity — no new tables, rows untouched. -/
theorem C4_init_db_schema (s : SqlSchema) :
    (init_db []).map Prod.fst =
      ["accounts", "proxies", "cards", "settings", "operation_logs"] ∧
    initializedDB (init_db s) = true ∧
    (initializedDB s = true → init_db s = s) ∧
    init_db (init_db s) = init_db s :=
  ⟨by decide, initializedDB_init_db s, init_db_noop_of_initialized s,
   init_db_noop_of_initialized (init_db s) (initializedDB_init_db s)⟩

/-- C4 witness: re-running `init_db` on the freshly initialized database
changes nothing. -/
theorem C4_init_db_schema_witness : init_db (init_db []) = init_db [] :=
  (C4_init_db_schema (init_db [])).2.2.1 (by decide)

/-! ### C2: all SQL under the one module-level lock -/

/-- Trace soundness of the syntactic check: a statement whose SQL leaves
all sit under `withLock` (or that is run while the lock is already held)
contributes a trace in which every SQL action happens at positive depth. -/
theorem runStmt_locked (s : DbStmt) :
    ∀ (env : List Bool) (d : Nat) (rest : List LockAction),
    (lockSafe s = true ∨ 0 < d) →
    sqlLocked d ((runStmt s env).1 ++ rest) = sqlLocked d rest := by
  induction s with
  | skip => intro env d rest _; rfl
  | sql q =>
    intro env d rest h
    rcases h with h | h
    · exact absurd h (by simp [lockSafe])
    · show sqlLocked d (LockAction.sql q :: rest) = sqlLocked d rest
      simp [sqlLocked, h]
  | seq a b iha ihb =>
    intro env d rest h
    have hab : (lockSafe a = true ∧ lockSafe b = true) ∨ 0 < d := by
      rcases h with h | h
      · simp only [lockSafe, Bool.and_eq_true] at h
        exact Or.inl h
      · exact Or.inr h
    show sqlLocked d (((runStmt a env).1 ++
        (runStmt b (runStmt a env).2).1) ++ rest) = sqlLocked d rest
    rw [List.append_assoc]
    rw [iha env d _ (by rcases hab with ⟨h1, _⟩ | h <;> [exact Or.inl h1; exact Or.inr h])]
    rw [ihb (runStmt a env).2 d rest
      (by rcases hab with ⟨_, h2⟩ | h <;> [exact Or.inl h2; exact Or.inr h])]
  | branch a b iha ihb =>
    intro env d rest h
    have hab : (lockSafe a = true ∧ lockSafe b = true) ∨ 0 < d := by
      rcases h with h | h
      · simp only [lockSafe, Bool.and_eq_true] at h
        exact Or.inl h
      · exact Or.inr h
    match env with
    | [] =>
      exact iha [] d rest
        (by rcases hab with ⟨h1, _⟩ | h <;> [exact Or.inl h1; exact Or.inr h])
    | true :: env' =>
      exact iha env' d rest
        (by rcases hab with ⟨h1, _⟩ | h <;> [exact Or.inl h1; exact Or.inr h])
    | false :: env' =>
      exact ihb env' d rest
        (by rcases hab with ⟨_, h2⟩ | h <;> [exact Or.inl h2; exact Or.inr h])
  | withLock body ih =>
    intro env d rest _
    show sqlLocked d ((LockAction.acquire :: (runStmt body env).1 ++
        [LockAction.release]) ++ rest) = sqlLocked d rest
    simp only [List.cons_append, List.append_assoc]
    show sqlLocked (d + 1) ((runStmt body env).1 ++
        ([LockAction.release] ++ rest)) = sqlLocked d rest
    rw [ih env (d + 1) _ (Or.inr (Nat.succ_pos d))]
    rfl

/-- C2: every `DBManager` operation that executes SQL passes the
syntactic lock check, and consequently, in every execution trace of every
such operation, every SQL statement is executed while the module-level
lock of `database.py` is held (the lock depth at each `sql` action is
positive, starting unlocked).  `database.py` is the only module of the
repository that executes SQL. -/
theorem C2_all_sql_under_lock (op : String × DbStmt)
    (hop : op ∈ dbOperations) :
    lockSafe op.2 = true ∧
    ∀ env : List Bool, sqlLocked 0 (runStmt op.2 env).1 = true := by
  have hall : dbOperations.all (fun p => lockSafe p.2) = true := by decide
  have hsafe : lockSafe op.2 = true := by
    rw [List.all_eq_true] at hall
    exact hall op hop
  refine ⟨hsafe, fun env => ?_⟩
  have := runStmt_locked op.2 env 0 [] (Or.inl hsafe)
  rw [List.append_nil] at this
  rw [this]
  rfl

/-- C2 witness: the upsert body acquires the lock around its SQL in a
concrete run (existing-account path). -/
theorem C2_all_sql_under_lock_witness :
    lockSafe upsertAccountStmt = true ∧
    sqlLocked 0 (runStmt upsertAccountStmt [false, true, true]).1 = true :=
  ⟨(C2_all_sql_under_lock ("upsert_account", upsertAccountStmt)
      (by decide)).1,
   (C2_all_sql_under_lock ("upsert_account", upsertAccountStmt)
      (by decide)).2 [false, true, true]⟩

/-! ### C8: export / import round trip — string groundwork -/

/-- A prefix of an append either stays inside the left part or swallows
it whole. -/
theorem prefix_append_cases (pat x b : List Char) (h : pat <+: x ++ b) :
    pat <+: x ∨ ∃ pr, pat = x ++ pr ∧ pr <+: b := by
  induction x generalizing pat with
  | nil => exact Or.inr ⟨pat, rfl, h⟩
  | cons c x₂ ih =>
    cases pat with
    | nil => exact Or.inl List.nil_prefix
    | cons d pat₂ =>
      rw [List.cons_append, List.cons_prefix_cons] at h
      obtain ⟨rfl, h2⟩ := h
      rcases ih pat₂ h2 with h3 | ⟨pr, rfl, hpr⟩
      · exact Or.inl (List.cons_prefix_cons.mpr ⟨rfl, h3⟩)
      · exact Or.inr ⟨pr, by rw [List.cons_append], hpr⟩

theorem hasSub_of_pref (pat l : List Char) (h : pat <+: l) :
    hasSub pat l = true := by
  cases l with
  | nil =>
    have : pat = [] := List.prefix_nil.mp h
    subst this
    rfl
  | cons c r =>
    have : pat.isPrefixOf (c :: r) = true := List.isPrefixOf_iff_prefix.mpr h
    simp [hasSub, this]

theorem hasSub_cons_false (pat : List Char) (c : Char) (r : List Char)
    (h : hasSub pat (c :: r) = false) : hasSub pat r = false := by
  simp only [hasSub, Bool.or_eq_false_iff] at h
  exact h.2

theorem infix_of_hasSub (pat l : List Char) (h : hasSub pat l = true) :
    pat <:+: l := by
  induction l with
  | nil =>
    simp only [hasSub, List.isEmpty_iff] at h
    subst h
    exact List.infix_refl _
  | cons c r ih =>
    simp only [hasSub, Bool.or_eq_true] at h
    rcases h with h | h
    · exact (List.isPrefixOf_iff_prefix.mp h).isInfix
    · exact List.infix_cons (ih h)

/-- Decomposition of a substring occurrence across an append. -/
theorem hasSub_append_cases (pat a b : List Char)
    (h : hasSub pat (a ++ b) = true) :
    hasSub pat a = true ∨ hasSub pat b = true ∨
    ∃ s pr, s ≠ [] ∧ pr ≠ [] ∧ pat = s ++ pr ∧ s <:+ a ∧ pr <+: b := by
  induction a with
  | nil => exact Or.inr (Or.inl h)
  | cons c a₂ ih =>
    rw [List.cons_append] at h
    simp only [hasSub, Bool.or_eq_true] at h
    rcases h with h | h
    · rw [List.isPrefixOf_iff_prefix] at h
      rw [show c :: (a₂ ++ b) = (c :: a₂) ++ b from rfl] at h
      rcases prefix_append_cases pat (c :: a₂) b h with h2 | ⟨pr, rfl, hpr⟩
      · exact Or.inl (hasSub_of_pref _ _ h2)
      · cases pr with
        | nil =>
          refine Or.inl (hasSub_of_pref _ _ ?_)
          rw [List.append_nil]
        | cons q qr =>
          exact Or.inr (Or.inr ⟨c :: a₂, q :: qr, by simp, by simp, rfl,
            List.suffix_refl _, hpr⟩)
    · rcases ih h with h2 | h2 | ⟨s, pr, hsne, hprne, hpe, hsuf, hpre⟩
      · exact Or.inl (by simp [hasSub, h2])
      · exact Or.inr (Or.inl h2)
      · exact Or.inr (Or.inr ⟨s, pr, hsne, hprne, hpe,
          hsuf.trans (List.suffix_cons c a₂), hpre⟩)

/-- A dash-free pattern absent from both sides cannot occur in
`a ++ ---- ++ b`. -/
theorem hasSub_append_dash_false (pat a b : List Char) (hne : pat ≠ [])
    (hd : ¬ '-' ∈ pat) (ha : hasSub pat a = false) (hb : hasSub pat b = false) :
    hasSub pat (a ++ (dashSep ++ b)) = false := by
  cases hx : hasSub pat (a ++ (dashSep ++ b)) with
  | false => rfl
  | true =>
    exfalso
    rcases hasSub_append_cases pat a (dashSep ++ b) hx with
      h | h | ⟨s, pr, hsne, hprne, hpe, _, hpre⟩
    · rw [ha] at h
      exact Bool.noConfusion h
    · rcases hasSub_append_cases pat dashSep b h with
        h2 | h2 | ⟨s, pr, hsne, hprne, hpe, hsuf, _⟩
      · have hinf := infix_of_hasSub pat dashSep h2
        obtain ⟨x, hxm⟩ : ∃ x, x ∈ pat := by
          cases pat with
          | nil => exact absurd rfl hne
          | cons y ys => exact ⟨y, List.mem_cons_self y ys⟩
        have hxd : x ∈ dashSep := hinf.subset hxm
        have : x = '-' := by
          simpa [dashSep] using hxd
        exact hd (this ▸ hxm)
      · rw [hb] at h2
        exact Bool.noConfusion h2
      · obtain ⟨y, hym⟩ : ∃ y, y ∈ s := by
          cases s with
          | nil => exact absurd rfl hsne
          | cons y ys => exact ⟨y, List.mem_cons_self y ys⟩
        have hyd : y ∈ dashSep := hsuf.subset hym
        have hy : y = '-' := by
          simpa [dashSep] using hyd
        exact hd (by
          rw [hpe]
          exact List.mem_append.mpr (Or.inl (hy ▸ hym)))
    · cases pr with
      | nil => exact absurd rfl hprne
      | cons q qr =>
        have hq : q = '-' := by
          have := (List.cons_prefix_cons.mp
            (by simpa [dashSep] using hpre)).1
          exact this
        exact hd (by
          rw [hpe]
          exact List.mem_append.mpr
            (Or.inr (hq ▸ List.mem_cons_self q qr)))

theorem dropWhile_eq_self_of_all (p : Char → Bool) (l : List Char)
    (h : ∀ c ∈ l, p c = false) : l.dropWhile p = l := by
  cases l with
  | nil => rfl
  | cons c r =>
    rw [List.dropWhile_cons, h c (List.mem_cons_self c r)]
    rfl

theorem pyStrip_eq_self (l : List Char) (h : ∀ c ∈ l, pyWS c = false) :
    pyStrip l = l := by
  unfold pyStrip
  rw [dropWhile_eq_self_of_all pyWS l h]
  rw [dropWhile_eq_self_of_all pyWS l.reverse
    (fun c hc => h c (List.mem_reverse.mp hc))]
  exact List.reverse_reverse l

theorem findHttpLink_eq_none (l : List Char)
    (h : hasSub "http".data l = false) : findHttpLink l = none := by
  induction l with
  | nil => rfl
  | cons c r ih =>
    have h1 : "https://".data.isPrefixOf (c :: r) = false := by
      cases hx : "https://".data.isPrefixOf (c :: r) with
      | false => rfl
      | true =>
        exfalso
        have hp : "http".data <+: c :: r :=
          List.IsPrefix.trans
            (List.isPrefixOf_iff_prefix.mp (by decide))
            (List.isPrefixOf_iff_prefix.mp hx)
        rw [hasSub_of_pref _ _ hp] at h
        exact Bool.noConfusion h
    have h2 : "http://".data.isPrefixOf (c :: r) = false := by
      cases hx : "http://".data.isPrefixOf (c :: r) with
      | false => rfl
      | true =>
        exfalso
        have hp : "http".data <+: c :: r :=
          List.IsPrefix.trans
            (List.isPrefixOf_iff_prefix.mp (by decide))
            (List.isPrefixOf_iff_prefix.mp hx)
        rw [hasSub_of_pref _ _ hp] at h
        exact Bool.noConfusion h
    simp only [findHttpLink, h1, h2, Bool.false_and, Bool.or_false,
      Bool.false_eq_true, if_false]
    exact ih (hasSub_cons_false _ _ _ h)

/-! ### C8: properties of the Python split -/

theorem splitFuel_congr (sep : List Char) :
    ∀ (f₁ f₂ : Nat) (l : List Char), l.length ≤ f₁ → l.length ≤ f₂ →
    splitFuel sep f₁ l = splitFuel sep f₂ l := by
  intro f₁
  induction f₁ with
  | zero =>
    intro f₂ l h1 h2
    have : l = [] := List.length_eq_zero.mp (Nat.le_zero.mp h1)
    subst this
    cases f₂ with
    | zero => rfl
    | succ g =>
      show [([] : List Char)] = splitFuel sep (g + 1) []
      cases sep with
      | nil => simp [splitFuel, List.isPrefixOf]
      | cons c r => simp [splitFuel, List.isPrefixOf]
  | succ f ih =>
    intro f₂ l h1 h2
    cases l with
    | nil =>
      cases f₂ with
      | zero => cases sep with
        | nil => simp [splitFuel, List.isPrefixOf]
        | cons c r => simp [splitFuel, List.isPrefixOf]
      | succ g => cases sep with
        | nil => simp [splitFuel, List.isPrefixOf]
        | cons c r => simp [splitFuel, List.isPrefixOf]
    | cons c r =>
      cases f₂ with
      | zero => exact absurd h2 (by simp)
      | succ g =>
        show splitFuel sep (f + 1) (c :: r) = splitFuel sep (g + 1) (c :: r)
        cases hc : (sep.isPrefixOf (c :: r) && !sep.isEmpty) with
        | true =>
          simp only [splitFuel, hc, if_true]
          have hsep : 1 ≤ sep.length := by
            rcases Bool.and_eq_true _ _ |>.mp hc with ⟨_, h⟩
            cases sep with
            | nil => simp at h
            | cons x xs => simp
          have hln : ((c :: r).drop sep.length).length ≤ f := by
            rw [List.length_drop]
            simp only [List.length_cons] at h1 ⊢
            omega
          have hlng : ((c :: r).drop sep.length).length ≤ g := by
            rw [List.length_drop]
            simp only [List.length_cons] at h2 ⊢
            omega
          rw [ih g ((c :: r).drop sep.length) hln hlng]
        | false =>
          simp only [splitFuel, hc, Bool.false_eq_true, if_false]
          have hr1 : r.length ≤ f := by
            simp only [List.length_cons] at h1
            omega
          have hr2 : r.length ≤ g := by
            simp only [List.length_cons] at h2
            omega
          rw [ih g r hr1 hr2]

theorem splitFuel_eq_pySplit (sep l : List Char) (f : Nat)
    (h : l.length ≤ f) : splitFuel sep f l = pySplit sep l :=
  splitFuel_congr sep f l.length l h (le_refl _)

theorem pySplit_cons_of_pref (sep l : List Char)
    (hc : (sep.isPrefixOf l && !sep.isEmpty) = true) :
    pySplit sep l = [] :: pySplit sep (l.drop sep.length) := by
  cases l with
  | nil =>
    exfalso
    rcases Bool.and_eq_true _ _ |>.mp hc with ⟨h1, h2⟩
    cases sep with
    | nil => simp at h2
    | cons x xs => simp [List.isPrefixOf] at h1
  | cons c r =>
    show splitFuel sep (r.length + 1) (c :: r) = _
    simp only [splitFuel, hc, if_true]
    have hsep : 1 ≤ sep.length := by
      rcases Bool.and_eq_true _ _ |>.mp hc with ⟨_, h⟩
      cases sep with
      | nil => simp at h
      | cons x xs => simp
    rw [splitFuel_eq_pySplit sep _ r.length (by
      rw [List.length_drop]
      simp only [List.length_cons]
      omega)]

theorem pySplit_cons_of_not_pref (sep : List Char) (c : Char)
    (r : List Char) (hc : (sep.isPrefixOf (c :: r) && !sep.isEmpty) = false) :
    pySplit sep (c :: r) = (pySplit sep r).modifyHead (c :: ·) := by
  show splitFuel sep (r.length + 1) (c :: r) = _
  simp only [splitFuel, hc, Bool.false_eq_true, if_false]
  rfl

/-- A field with no embedded separator is returned whole. -/
theorem pySplit_of_no_sub (sep p : List Char) (hp : hasSub sep p = false) :
    pySplit sep p = [p] := by
  induction p with
  | nil => rfl
  | cons c r ih =>
    have hpre : sep.isPrefixOf (c :: r) = false := by
      cases hx : sep.isPrefixOf (c :: r) with
      | false => rfl
      | true =>
        exfalso
        have : hasSub sep (c :: r) = true := by simp [hasSub, hx]
        rw [hp] at this
        exact Bool.noConfusion this
    rw [pySplit_cons_of_not_pref sep c r (by rw [hpre]; rfl)]
    rw [ih (hasSub_cons_false _ _ _ hp)]
    rfl

theorem getLast?_mem_of_cons (c : Char) (p : List Char) :
    ∃ a, (c :: p).getLast? = some a ∧ a ∈ c :: p := by
  induction p generalizing c with
  | nil => exact ⟨c, rfl, List.mem_cons_self c []⟩
  | cons d r ih =>
    obtain ⟨a, ha, hm⟩ := ih d
    exact ⟨a, by rw [List.getLast?_cons_cons]; exact ha,
      List.mem_cons_of_mem c hm⟩

/-- The designated separator after a clean field is found first. -/
theorem pySplit_dash_append (p t : List Char)
    (hp : hasSub dashSep p = false) (hlast : p.getLast? ≠ some '-') :
    pySplit dashSep (p ++ (dashSep ++ t)) = p :: pySplit dashSep t := by
  induction p with
  | nil =>
    rw [List.nil_append]
    rw [pySplit_cons_of_pref dashSep (dashSep ++ t) (by
      rw [List.isPrefixOf_iff_prefix.mpr (List.prefix_append dashSep t)]
      rfl)]
    rw [List.drop_left dashSep t]
  | cons c p₂ ih =>
    have hnp : dashSep.isPrefixOf (c :: p₂ ++ (dashSep ++ t)) = false := by
      cases hx : dashSep.isPrefixOf (c :: p₂ ++ (dashSep ++ t)) with
      | false => rfl
      | true =>
        exfalso
        have hx2 : dashSep <+: (c :: p₂) ++ (dashSep ++ t) := by
          rw [← List.isPrefixOf_iff_prefix]
          exact hx
        rcases prefix_append_cases dashSep (c :: p₂) (dashSep ++ t) hx2 with
          h2 | ⟨pr, hpe, _⟩
        · rw [hasSub_of_pref _ _ h2] at hp
          exact Bool.noConfusion hp
        · have hps : (c :: p₂) <+: dashSep := ⟨pr, hpe.symm⟩
          obtain ⟨a, ha, hm⟩ := getLast?_mem_of_cons c p₂
          have : a ∈ dashSep := hps.isInfix.subset hm
          have ha2 : a = '-' := by simpa [dashSep] using this
          rw [ha2] at ha
          exact hlast ha
    rw [show (c :: p₂) ++ (dashSep ++ t) = c :: (p₂ ++ (dashSep ++ t))
      from rfl]
    rw [pySplit_cons_of_not_pref dashSep c _ (by
      rw [show c :: (p₂ ++ (dashSep ++ t)) = (c :: p₂) ++ (dashSep ++ t)
        from rfl, hnp]
      rfl)]
    have hlast2 : p₂.getLast? ≠ some '-' := by
      cases p₂ with
      | nil => simp
      | cons d r =>
        rw [← List.getLast?_cons_cons (a := c)]
        exact hlast
    rw [ih (hasSub_cons_false _ _ _ hp) hlast2]
    rfl

/-! ### C8: the round trip -/

theorem isEmpty_eq_false_of_ne_nil (l : List Char) (h : l ≠ []) :
    l.isEmpty = false := by
  cases l with
  | nil => exact absurd rfl h
  | cons c r => rfl

theorem exportableField_spec (s : String) (h : exportableField s = true) :
    s.data ≠ [] ∧ (∀ c ∈ s.data, pyWS c = false ∧ c ≠ '#') ∧
    hasSub "----".data s.data = false ∧ hasSub "http".data s.data = false ∧
    isDateRange s.data = false := by
  simp only [exportableField, Bool.and_eq_true, Bool.not_eq_true'] at h
  obtain ⟨⟨⟨⟨hne, hall⟩, hsep⟩, hhttp⟩, hdate⟩ := h
  refine ⟨?_, ?_, hsep, hhttp, hdate⟩
  · intro he
    rw [he] at hne
    exact Bool.noConfusion hne
  · intro c hc
    rw [List.all_eq_true] at hall
    have := hall c hc
    simp only [Bool.and_eq_true, Bool.not_eq_true', bne_iff_ne] at this
    exact this

theorem all_clean_append (a b : List Char)
    (ha : ∀ c ∈ a, pyWS c = false ∧ c ≠ '#')
    (hb : ∀ c ∈ b, pyWS c = false ∧ c ≠ '#') :
    ∀ c ∈ a ++ (dashSep ++ b), pyWS c = false ∧ c ≠ '#' := by
  intro c hc
  rcases List.mem_append.mp hc with h | h
  · exact ha c h
  · rcases List.mem_append.mp h with h | h
    · have : c = '-' := by simpa [dashSep] using h
      subst this
      exact ⟨by decide, by decide⟩
    · exact hb c h

/-- On a line with no whitespace, no `#` and no `http`, the parser is
exactly split-strip-filter followed by the field assignment, with no
extracted link. -/
theorem parseAccountLine_clean (L : List Char) (hne : L ≠ [])
    (hclean : ∀ c ∈ L, pyWS c = false ∧ c ≠ '#')
    (hhttp : hasSub "http".data L = false) :
    parseAccountLine L "----".data =
      assignAccountFields none
        ((((pySplit dashSep L).map pyStrip).filter (fun p => !p.isEmpty)).filter
          (fun p => !isDateRange p)) := by
  have hws : ∀ c ∈ L, pyWS c = false := fun c hc => (hclean c hc).1
  have hstrip : pyStrip L = L := pyStrip_eq_self L hws
  have hcontains : L.contains '#' = false := by
    simp only [List.contains, List.elem_eq_mem, decide_eq_false_iff_not]
    exact fun hc => (hclean '#' hc).2 rfl
  have hcs : accountCommentStrip L = L := by
    unfold accountCommentStrip
    simp only [hstrip, hcontains]
    rfl
  have hfind : findHttpLink L = none := findHttpLink_eq_none L hhttp
  have hals : accountLinkSplit L "----".data = (none, L) := by
    unfold accountLinkSplit
    simp only [hcs, hfind]
  have hap : accountParts L "----".data =
      (((pySplit dashSep L).map pyStrip).filter (fun p => !p.isEmpty)).filter
        (fun p => !isDateRange p) := by
    unfold accountParts
    rw [hals]
    rfl
  unfold parseAccountLine
  rw [hstrip, hcs, if_neg hne, if_neg hne, hals, hap]

/-- C8 (amended): the export/import round trip holds for every account
whose present fields are non-empty, whitespace-free, `#`-free,
`----`-free, `http`-free, not date ranges, whose email (and recovery
email) contain `'@'` and `'.'`, whose secret key contains no `'@'`, and
— the amendment — whose fields that are followed by a further field on
the exported line do not end in `'-'`. -/
theorem C8_export_import_roundtrip_amended
    (email password : String) (recovery secret : Option String)
    (hE : exportableField email = true)
    (hEat : email.data.contains '@' = true)
    (hEdot : email.data.contains '.' = true)
    (hEdash : email.data.getLast? ≠ some '-')
    (hP : exportableField password = true)
    (hPdash : recovery.isSome = true ∨ secret.isSome = true →
      password.data.getLast? ≠ some '-')
    (hR : ∀ r, recovery = some r → exportableField r = true ∧
      r.data.contains '@' = true ∧ r.data.contains '.' = true)
    (hRdash : ∀ r, recovery = some r → secret.isSome = true →
      r.data.getLast? ≠ some '-')
    (hS : ∀ k, secret = some k → exportableField k = true ∧
      k.data.contains '@' = false) :
    parse_account_string (exportAccountLine email (some password) recovery secret)
        "----" =
      some ⟨email.data, password.data, recovery.map String.data,
        secret.map String.data, none⟩ := by
  obtain ⟨Ene, Eclean, Esep, Ehttp, Edate⟩ := exportableField_spec email hE
  obtain ⟨Pne, Pclean, Psep, Phttp, Pdate⟩ := exportableField_spec password hP
  have hEatm : '@' ∈ email.data := by
    simpa [List.contains, List.elem_eq_mem] using hEat
  have hEdotm : '.' ∈ email.data := by
    simpa [List.contains, List.elem_eq_mem] using hEdot
  have hPne : ¬ password = "" := fun h => Pne (by rw [h])
  have hEie := isEmpty_eq_false_of_ne_nil _ Ene
  have hPie := isEmpty_eq_false_of_ne_nil _ Pne
  cases recovery with
  | none =>
    cases secret with
    | none =>
      have hline : exportAccountLine email (some password) none none =
          email ++ "----" ++ password := by
        simp only [exportAccountLine, if_neg hPne]
      rw [hline]
      show parseAccountLine (email ++ "----" ++ password).data "----".data = _
      have hLd : (email ++ "----" ++ password).data =
          email.data ++ (dashSep ++ password.data) := by
        simp [dashSep, List.append_assoc]
      rw [hLd]
      rw [parseAccountLine_clean _
        (List.append_ne_nil_of_left_ne_nil Ene _)
        (all_clean_append _ _ Eclean Pclean)
        (hasSub_append_dash_false _ _ _ (by decide) (by decide) Ehttp Phttp)]
      rw [pySplit_dash_append _ _ Esep hEdash, pySplit_of_no_sub dashSep password.data Psep]
      simp only [List.map_cons, List.map_nil,
        pyStrip_eq_self email.data (fun c hc => (Eclean c hc).1),
        pyStrip_eq_self password.data (fun c hc => (Pclean c hc).1)]
      simp [List.filter_cons, hEie, hPie, Edate, Pdate,
        assignAccountFields, hEatm, hEdotm]
    | some k =>
      obtain ⟨hKf, hKat⟩ := hS k rfl
      obtain ⟨Kne, Kclean, Ksep, Khttp, Kdate⟩ := exportableField_spec k hKf
      have hKatm : ¬ '@' ∈ k.data := by
        simpa [List.contains, List.elem_eq_mem] using hKat
      have hKne : ¬ k = "" := fun h => Kne (by rw [h])
      have hKie := isEmpty_eq_false_of_ne_nil _ Kne
      have hline : exportAccountLine email (some password) none (some k) =
          email ++ "----" ++ password ++ "----" ++ k := by
        simp only [exportAccountLine, if_neg hPne, if_neg hKne]
      rw [hline]
      show parseAccountLine
        (email ++ "----" ++ password ++ "----" ++ k).data "----".data = _
      have hLd : (email ++ "----" ++ password ++ "----" ++ k).data =
          email.data ++ (dashSep ++ (password.data ++ (dashSep ++ k.data))) := by
        simp [dashSep, List.append_assoc]
      rw [hLd]
      rw [parseAccountLine_clean _
        (List.append_ne_nil_of_left_ne_nil Ene _)
        (all_clean_append _ _ Eclean (all_clean_append _ _ Pclean Kclean))
        (hasSub_append_dash_false _ _ _ (by decide) (by decide) Ehttp
          (hasSub_append_dash_false _ _ _ (by decide) (by decide) Phttp Khttp))]
      rw [pySplit_dash_append _ _ Esep hEdash,
        pySplit_dash_append _ _ Psep (hPdash (Or.inr rfl)),
        pySplit_of_no_sub dashSep k.data Ksep]
      simp only [List.map_cons, List.map_nil,
        pyStrip_eq_self email.data (fun c hc => (Eclean c hc).1),
        pyStrip_eq_self password.data (fun c hc => (Pclean c hc).1),
        pyStrip_eq_self k.data (fun c hc => (Kclean c hc).1)]
      simp [List.filter_cons, hEie, hPie, hKie, Edate, Pdate, Kdate,
        assignAccountFields, hEatm, hEdotm, hKatm]
  | some r =>
    obtain ⟨hRf, hRat, hRdot⟩ := hR r rfl
    obtain ⟨Rne, Rclean, Rsep, Rhttp, Rdate⟩ := exportableField_spec r hRf
    have hRatm : '@' ∈ r.data := by
      simpa [List.contains, List.elem_eq_mem] using hRat
    have hRdotm : '.' ∈ r.data := by
      simpa [List.contains, List.elem_eq_mem] using hRdot
    have hRne : ¬ r = "" := fun h => Rne (by rw [h])
    have hRie := isEmpty_eq_false_of_ne_nil _ Rne
    cases secret with
    | none =>
      have hline : exportAccountLine email (some password) (some r) none =
          email ++ "----" ++ password ++ "----" ++ r := by
        simp only [exportAccountLine, if_neg hPne, if_neg hRne]
      rw [hline]
      show parseAccountLine
        (email ++ "----" ++ password ++ "----" ++ r).data "----".data = _
      have hLd : (email ++ "----" ++ password ++ "----" ++ r).data =
          email.data ++ (dashSep ++ (password.data ++ (dashSep ++ r.data))) := by
        simp [dashSep, List.append_assoc]
      rw [hLd]
      rw [parseAccountLine_clean _
        (List.append_ne_nil_of_left_ne_nil Ene _)
        (all_clean_append _ _ Eclean (all_clean_append _ _ Pclean Rclean))
        (hasSub_append_dash_false _ _ _ (by decide) (by decide) Ehttp
          (hasSub_append_dash_false _ _ _ (by decide) (by decide) Phttp Rhttp))]
      rw [pySplit_dash_append _ _ Esep hEdash,
        pySplit_dash_append _ _ Psep (hPdash (Or.inl rfl)),
        pySplit_of_no_sub dashSep r.data Rsep]
      simp only [List.map_cons, List.map_nil,
        pyStrip_eq_self email.data (fun c hc => (Eclean c hc).1),
        pyStrip_eq_self password.data (fun c hc => (Pclean c hc).1),
        pyStrip_eq_self r.data (fun c hc => (Rclean c hc).1)]
      simp [List.filter_cons, hEie, hPie, hRie, Edate, Pdate, Rdate,
        assignAccountFields, hEatm, hEdotm, hRatm, hRdotm]
    | some k =>
      obtain ⟨hKf, hKat⟩ := hS k rfl
      obtain ⟨Kne, Kclean, Ksep, Khttp, Kdate⟩ := exportableField_spec k hKf
      have hKatm : ¬ '@' ∈ k.data := by
        simpa [List.contains, List.elem_eq_mem] using hKat
      have hKne : ¬ k = "" := fun h => Kne (by rw [h])
      have hKie := isEmpty_eq_false_of_ne_nil _ Kne
      have hline : exportAccountLine email (some password) (some r) (some k) =
          email ++ "----" ++ password ++ "----" ++ r ++ "----" ++ k := by
        simp only [exportAccountLine, if_neg hPne, if_neg hRne, if_neg hKne]
      rw [hline]
      show parseAccountLine
        (email ++ "----" ++ password ++ "----" ++ r ++ "----" ++ k).data
        "----".data = _
      have hLd : (email ++ "----" ++ password ++ "----" ++ r ++ "----" ++ k).data =
          email.data ++ (dashSep ++ (password.data ++ (dashSep ++
            (r.data ++ (dashSep ++ k.data))))) := by
        simp [dashSep, List.append_assoc]
      rw [hLd]
      rw [parseAccountLine_clean _
        (List.append_ne_nil_of_left_ne_nil Ene _)
        (all_clean_append _ _ Eclean (all_clean_append _ _ Pclean
          (all_clean_append _ _ Rclean Kclean)))
        (hasSub_append_dash_false _ _ _ (by decide) (by decide) Ehttp
          (hasSub_append_dash_false _ _ _ (by decide) (by decide) Phttp
            (hasSub_append_dash_false _ _ _ (by decide) (by decide) Rhttp
              Khttp)))]
      rw [pySplit_dash_append _ _ Esep hEdash,
        pySplit_dash_append _ _ Psep (hPdash (Or.inl rfl)),
        pySplit_dash_append _ _ Rsep (hRdash r rfl rfl),
        pySplit_of_no_sub dashSep k.data Ksep]
      simp only [List.map_cons, List.map_nil,
        pyStrip_eq_self email.data (fun c hc => (Eclean c hc).1),
        pyStrip_eq_self password.data (fun c hc => (Pclean c hc).1),
        pyStrip_eq_self r.data (fun c hc => (Rclean c hc).1),
        pyStrip_eq_self k.data (fun c hc => (Kclean c hc).1)]
      simp [List.filter_cons, hEie, hPie, hRie, hKie, Edate, Pdate, Rdate,
        Kdate, assignAccountFields, hEatm, hEdotm, hRatm, hRdotm, hKatm]

/-- C8 counterexample: password `p-` satisfies every constraint of the
claim as stated (non-empty, no whitespace, `#`, `----`, `http`, not a
date range), yet its trailing `-` merges with the separator: the line
`a@b.c----p-----r@c.d` splits as `a@b.c / p / -r@c.d`, and the round trip
does not recover the original password and recovery email. -/
theorem C8_export_import_roundtrip_counterexample :
    exportableField "a@b.c" = true ∧ exportableField "p-" = true ∧
    exportableField "r@c.d" = true ∧
    "a@b.c".data.contains '@' = true ∧ "a@b.c".data.contains '.' = true ∧
    "r@c.d".data.contains '@' = true ∧ "r@c.d".data.contains '.' = true ∧
    parse_account_string
        (exportAccountLine "a@b.c" (some "p-") (some "r@c.d") none) "----" ≠
      some ⟨"a@b.c".data, "p-".data, some "r@c.d".data, none, none⟩ := by
  decide

/-- C8 witness: a concrete clean account round-trips. -/
theorem C8_export_import_roundtrip_witness :
    parse_account_string
        (exportAccountLine "a@b.c" (some "pw") (some "r@c.d") (some "KEY7"))
        "----" =
      some ⟨"a@b.c".data, "pw".data, some "r@c.d".data, some "KEY7".data,
        none⟩ :=
  C8_export_import_roundtrip_amended "a@b.c" "pw" (some "r@c.d")
    (some "KEY7") (by decide) (by decide) (by decide) (by decide)
    (by decide) (fun _ => by decide)
    (fun r hr => by cases hr; exact ⟨by decide, by decide, by decide⟩)
    (fun r hr _ => by cases hr; decide)
    (fun k hk => by cases hk; exact ⟨by decide, by decide⟩)
